import Mathlib

/-!
Shallow embedding of the hypr-voice-controls runtime and proofs about its
specification claims.

The embedding mirrors the Python sources:
  * `voice_hotkey/runtime/state_machine.py` — the runtime state machine;
  * `voice_hotkey/runtime/job_queue.py` — the bounded execution queue;
  * `voice_hotkey/vad.py` — the endpointing VAD;
  * `voice_hotkey/state_utils.py` — staleness / capture-identity checks;
  * `voice_hotkey/orchestrator.py` — the endpointed capture loop and session;
  * `voice_hotkey/app.py` — hold-session stop path, v2 handler wrappers,
    daemon request decoding;
  * `voice_controls/app.py` — the line-protocol connection handler.

Machine integers are modelled as `Nat`/`Int`, wall-clock instants as `Rat`.
Effectful code is modelled by explicit state passing plus effect traces;
OS facts (pid liveness, file existence, transcription outcomes) are oracle
parameters.
-/

namespace VoiceControls

/-! ## Runtime state machine (`voice_hotkey/runtime/state_machine.py`) -/

/-- Runtime states, mirroring the five string constants `STATE_IDLE`,
`STATE_COMMAND_HOLD`, `STATE_DICTATE_HOLD`, `STATE_WAKE_SESSION`,
`STATE_TRANSCRIBING`. The Python code represents them as strings; the
machine only ever holds one of these five values. -/
inductive RuntimeState where
  | idle
  | commandHold
  | dictateHold
  | wakeSession
  | transcribing
deriving DecidableEq, Repr

/-- Result record of `RuntimeStateMachine.transition`, mirroring
`TransitionResult(allowed, action, previous_state, next_state, reason)`. -/
structure TransitionResult where
  allowed : Bool
  action : String
  previousState : RuntimeState
  nextState : RuntimeState
  reason : Option String
deriving DecidableEq, Repr

/-- Mirrors `_resolve_transition(state, action)`: the if-chain over action
strings, returning `(allowed, next_state, reason)`. -/
def resolveTransition (state : RuntimeState) (action : String) :
    Bool × RuntimeState × Option String :=
  if action = "command-start" then
    if state = .idle ∨ state = .commandHold then
      (true, .commandHold, none)
    else (false, state, some "runtime_busy")
  else if action = "command-stop" then
    if state = .commandHold then (true, .transcribing, none)
    else if state = .idle then (true, .idle, none)
    else (false, state, some "invalid_transition")
  else if action = "command-stop-complete" ∨ action = "command-start-failed" then
    if state = .transcribing ∨ action = "command-start-failed" then
      (true, .idle, none)
    else (false, state, some "invalid_transition")
  else if action = "dictate-start" then
    if state = .idle ∨ state = .dictateHold then
      (true, .dictateHold, none)
    else (false, state, some "runtime_busy")
  else if action = "dictate-stop" then
    if state = .dictateHold then (true, .transcribing, none)
    else if state = .idle then (true, .idle, none)
    else (false, state, some "invalid_transition")
  else if action = "dictate-stop-complete" ∨ action = "dictate-start-failed" then
    if state = .transcribing ∨ action = "dictate-start-failed" then
      (true, .idle, none)
    else (false, state, some "invalid_transition")
  else if action = "wake-start" then
    if state = .idle then (true, .wakeSession, none)
    else (false, state, some "runtime_busy")
  else if action = "wake-complete" ∨ action = "wake-failed" then
    if state = .wakeSession then (true, .idle, none)
    else (false, state, some "invalid_transition")
  else
    (false, state, some "unknown_action")

/-- Mirrors `RuntimeStateMachine.transition`: applies `_resolve_transition`
under the machine lock; on a disallowed action the state is unchanged and
`next_state` is reported as the previous state. -/
def smTransition (state : RuntimeState) (action : String) : TransitionResult :=
  let r := resolveTransition state action
  if r.1 then
    { allowed := true, action := action, previousState := state,
      nextState := r.2.1, reason := r.2.2 }
  else
    { allowed := false, action := action, previousState := state,
      nextState := state, reason := r.2.2 }

/-- The five runtime states, for finite quantification. -/
def allRuntimeStates : List RuntimeState :=
  [.idle, .commandHold, .dictateHold, .wakeSession, .transcribing]

/-- The three capture-start actions: exactly these report `runtime_busy`
when disallowed. -/
def startActions : List String :=
  ["command-start", "dictate-start", "wake-start"]

/-! ## Execution queue (`voice_hotkey/runtime/job_queue.py`)

`RuntimeJobQueue` guards its deque and running-job slot with one lock.  The
model's atomic steps are exactly the lock-protected critical sections of the
Python code: `submit`, `cancel_by_name`, the worker's dequeue block, and the
worker's run-and-record block (which executes outside the lock but touches
only the dequeued job, plus one locked write clearing `_running_job`).  The
job's `fn` is abstracted to the `Int` it returns; a ghost trace `ran` records
every job whose `fn` was actually invoked, and `cancelledIds` records every
pending job whose future `cancel_by_name` cancelled. -/

/-- One `_QueuedJob`: id, name, the `Future` status, and the shared cancel
event (`threading.Event`). `futureCancelled` is `future.cancelled()`;
`futureResult` is the recorded result, if any. -/
structure QueuedJob where
  jobId : Nat
  name : String
  futureCancelled : Bool
  futureResult : Option Int
  cancelEvent : Bool
deriving DecidableEq, Repr

/-- The lock-protected state of `RuntimeJobQueue`, plus ghost trace fields
(`ran`, `cancelledJobs`) used only to state theorems: `ran` holds each job
whose `fn` was invoked, `cancelledJobs` holds each pending job removed by
`cancel_by_name` after its `future.cancel()` (callers still hold these
futures, which now report the cancelled terminal state). -/
structure QueueState where
  maxSize : Nat
  pendingJobs : List QueuedJob
  runningJob : Option QueuedJob
  nextId : Nat
  ran : List QueuedJob
  cancelledJobs : List QueuedJob
deriving DecidableEq, Repr

/-- Fresh queue as built by `RuntimeJobQueue.__init__` (empty deque, no
running job, ids counted from 1). -/
def initQueue (maxSize : Nat) : QueueState :=
  { maxSize := maxSize, pendingJobs := [], runningJob := none,
    nextId := 1, ran := [], cancelledJobs := [] }

/-- The fresh `_QueuedJob` record `submit` builds: id from the counter, a
fresh non-cancelled future, a cleared cancel event. -/
def freshJob (s : QueueState) (name : String) : QueuedJob :=
  { jobId := s.nextId, name := name, futureCancelled := false,
    futureResult := none, cancelEvent := false }

/-- Mirrors `submit(name, fn)`: builds the job and future, and under the
lock either rejects it (`len(self._pending_jobs) >= self._max_size` ⇒ return
`None`, nothing enqueued, `fn` never invoked) or appends it and notifies the
worker. Returns the new state and whether a future was returned. -/
def qSubmit (s : QueueState) (name : String) : QueueState × Bool :=
  if s.pendingJobs.length ≥ s.maxSize then
    (s, false)
  else
    ({ s with pendingJobs := s.pendingJobs ++ [freshJob s name], nextId := s.nextId + 1 },
     true)

/-- Mirrors `cancel_by_name(name)`: under the lock, sets the running job's
cancel event when its name matches, rebuilds the pending deque keeping only
jobs of other names while cancelling the futures of removed ones, and
returns whether any job was affected. -/
def qCancelByName (s : QueueState) (name : String) : QueueState × Bool :=
  let runningMatches : Bool := match s.runningJob with
    | some j => j.name = name
    | none => false
  let running' := match s.runningJob with
    | some j => if j.name = name then some { j with cancelEvent := true } else some j
    | none => none
  let removed := s.pendingJobs.filter (fun j => j.name = name)
  let remaining := s.pendingJobs.filter (fun j => ¬ j.name = name)
  let affected := runningMatches || !removed.isEmpty
  ({ s with
      runningJob := running',
      pendingJobs := remaining,
      cancelledJobs :=
        s.cancelledJobs ++ removed.map (fun j => { j with futureCancelled := true }) },
   affected)

/-- Mirrors the worker's dequeue critical section in `_worker_loop`: when a
pending job exists and no job is currently being processed, pop it, record
`started_at`, and install it as `_running_job`. (The Python worker blocks on
the condvar when the deque is empty; a single worker never dequeues while a
previous job is still in flight.) -/
def qWorkerTake (s : QueueState) : QueueState :=
  match s.runningJob, s.pendingJobs with
  | none, j :: rest => { s with runningJob := some j, pendingJobs := rest }
  | _, _ => s

/-- Mirrors the worker's body after the dequeue block: if the dequeued job's
future is already cancelled, skip `fn` (the `continue` still runs the
`finally`, clearing `_running_job`); otherwise invoke `fn(cancel_event)` —
abstracted as the integer `res` — record the result in the future, and clear
`_running_job`. The ghost `ran` trace records the job iff `fn` was invoked. -/
def qWorkerRun (s : QueueState) (res : Int) : QueueState :=
  match s.runningJob with
  | none => s
  | some j =>
      if j.futureCancelled then
        { s with runningJob := none }
      else
        { s with
            runningJob := none,
            ran := s.ran ++ [{ j with futureResult := some res }] }

/-- One atomic step of the queue model. -/
inductive QStep where
  | submit (name : String)
  | cancel (name : String)
  | take
  | run (res : Int)
deriving DecidableEq, Repr

/-- Applies one step. -/
def qApply (s : QueueState) : QStep → QueueState
  | .submit name => (qSubmit s name).1
  | .cancel name => (qCancelByName s name).1
  | .take => qWorkerTake s
  | .run res => qWorkerRun s res

/-- Applies a sequence of interleaved steps. -/
def qApplyAll (s : QueueState) (steps : List QStep) : QueueState :=
  steps.foldl qApply s

/-! ## Endpointing VAD (`voice_hotkey/vad.py`)

`EndpointVAD.update` classifies each non-empty frame by comparing its RMS to
`rms_threshold` and accumulates speech / trailing-silence milliseconds.  The
RMS itself is computed by `_rms_pcm16_le` in floating point
(`int(math.sqrt(square_sum / count))`); the frame is abstracted here to the
`Nat` RMS value that computation yields, since every claim about the VAD is
about the accumulation logic downstream of the threshold comparison.  An
empty frame (`if not frame`) is `none`. -/

/-- Mutable state of `EndpointVAD` after `__init__`s clamping
(`frame_ms = max(10, frame_ms)` etc.). -/
structure VadState where
  frameMs : Nat
  rmsThreshold : Nat
  minSpeechMs : Nat
  endSilenceMs : Nat
  speechMs : Nat
  silenceMs : Nat
  hasStarted : Bool
deriving DecidableEq, Repr

/-- Mirrors `EndpointVAD.__init__(frame_ms, rms_threshold, min_speech_ms,
end_silence_ms)`. -/
def vadInit (frameMs rmsThreshold minSpeechMs endSilenceMs : Nat) : VadState :=
  let fm := max 10 frameMs
  { frameMs := fm,
    rmsThreshold := max 1 rmsThreshold,
    minSpeechMs := max fm minSpeechMs,
    endSilenceMs := max fm endSilenceMs,
    speechMs := 0, silenceMs := 0, hasStarted := false }

/-- Mirrors `EndpointVAD.update(frame)`. Returns the new state and the
`(has_started, endpoint, rms)` triple. `frame = none` is the empty-bytes
early return; `frame = some rms` is a non-empty frame whose
`_rms_pcm16_le` value is `rms`. -/
def vadUpdate (v : VadState) (frame : Option Nat) : VadState × Bool × Bool × Nat :=
  match frame with
  | none => (v, v.hasStarted, false, 0)
  | some rms =>
      let isSpeech := rms ≥ v.rmsThreshold
      let v1 :=
        if isSpeech then { v with speechMs := v.speechMs + v.frameMs, silenceMs := 0 }
        else if v.hasStarted then { v with silenceMs := v.silenceMs + v.frameMs }
        else v
      let v2 :=
        if ¬ v1.hasStarted ∧ v1.speechMs ≥ v1.minSpeechMs then
          { v1 with hasStarted := true }
        else v1
      let endpoint := v2.hasStarted ∧ v2.silenceMs ≥ v2.endSilenceMs
      (v2, v2.hasStarted, endpoint, rms)

/-- Folds `update` over a sequence of non-empty frames (their RMS values). -/
def vadFold (v : VadState) (frames : List Nat) : VadState :=
  frames.foldl (fun st rms => (vadUpdate st (some rms)).1) v

/-- Specification-level count of speech frames (RMS at or above the
threshold) in a frame sequence. -/
def speechCount (threshold : Nat) (frames : List Nat) : Nat :=
  frames.countP (fun rms => rms ≥ threshold)

/-- Specification-level length of the maximal trailing run of silent frames
(RMS below the threshold), computed in the same left-fold direction as the
capture loop consumes frames. -/
def trailingSilence (threshold : Nat) (frames : List Nat) : Nat :=
  frames.foldl (fun acc rms => if rms ≥ threshold then 0 else acc + 1) 0

/-! ## State-file helpers (`voice_hotkey/state_utils.py`)

The persisted descriptors are JSON, so field values are dynamically typed;
`PyVal` models the Python values a parsed field can hold.  Python booleans
are instances of `int`, so `isinstance(x, (int, float))` accepts them.
Wall-clock seconds are `Rat`.  `STATE_MAX_AGE_SECONDS` is environment
configured and passed as a parameter, as is the `time.time()` value the code
reads when its `now` argument is `None`. -/

/-- A dynamically-typed Python value as found in a parsed JSON state dict. -/
inductive PyVal where
  | pnone
  | pint (n : Int)
  | pfloat (q : Rat)
  | pbool (b : Bool)
  | pstr (s : String)
  | pother
deriving DecidableEq, Repr

/-- Mirrors `isinstance(x, (int, float))` — true for ints, floats and booleans. -/
def PyVal.isNumeric : PyVal → Bool
  | .pint _ => true
  | .pfloat _ => true
  | .pbool _ => true
  | _ => false

/-- Mirrors `float(x)` for a value passing the `isinstance` check above. -/
def PyVal.toRat : PyVal → Rat
  | .pint n => (n : Rat)
  | .pfloat q => q
  | .pbool b => if b then 1 else 0
  | _ => 0

/-- Mirrors `is_state_stale(started_at, now=...)`: a missing or non-numeric
`started_at` is never stale; otherwise stale iff the age exceeds
`STATE_MAX_AGE_SECONDS` (strict `>`). -/
def isStateStale (stateMaxAgeSeconds : Rat) (startedAt : PyVal) (now : Rat) : Bool :=
  if startedAt.isNumeric then
    decide ((now - startedAt.toRat) > stateMaxAgeSeconds)
  else
    false

/-- The fields of a parsed capture descriptor that
`is_capture_state_active_payload` reads. -/
structure CaptureStatePayload where
  pid : PyVal
  startedAt : PyVal
  pidRequiredSubstrings : Option (List PyVal)
deriving DecidableEq, Repr

/-- Mirrors `state_required_substrings(state)`: keep the non-empty string
tokens of `pid_required_substrings` when that yields a non-empty list,
otherwise fall back to `["ffmpeg"]`. -/
def stateRequiredSubstrings (p : CaptureStatePayload) : List String :=
  match p.pidRequiredSubstrings with
  | some raw =>
      let tokens := raw.filterMap (fun v =>
        match v with
        | .pstr s => if s.trim = "" then none else some s
        | _ => none)
      if tokens.isEmpty then ["ffmpeg"] else tokens
  | none => ["ffmpeg"]

/-- Mirrors `is_capture_state_active_payload(state, now=...)`.
`pidAlive` and `pidCmdlineContains` are oracles for the `/proc` checks of
`voice_hotkey/audio.py`. A Python `bool` pid passes `isinstance(pid, int)`,
mirrored here by `pbool`. -/
def isCaptureStateActivePayload
    (stateMaxAgeSeconds : Rat)
    (pidAlive : Int → Bool)
    (pidCmdlineContains : Int → List String → Bool)
    (p : CaptureStatePayload) (now : Rat) : Bool :=
  let pidOk : Option Int := match p.pid with
    | .pint n => if n > 0 then some n else none
    | .pbool b => if b then some 1 else none
    | _ => none
  match pidOk with
  | none => false
  | some pid =>
      if isStateStale stateMaxAgeSeconds p.startedAt now then false
      else if ¬ pidAlive pid then false
      else if ¬ pidCmdlineContains pid (stateRequiredSubstrings p) then false
      else true

/-- Mirrors the decision in `_stop_press_hold_recorder` (`voice_hotkey/app.py`):
`stop_recording_pid` is reached iff `pid > 0` and the capture payload is
active (alive pid, matching cmdline, not stale). -/
def stopRecorderSignals
    (stateMaxAgeSeconds : Rat)
    (pidAlive : Int → Bool)
    (pidCmdlineContains : Int → List String → Bool)
    (pid : Int) (startedAt : PyVal) (requiredSubstrings : List String)
    (now : Rat) : Bool :=
  if pid ≤ 0 then false
  else
    isCaptureStateActivePayload stateMaxAgeSeconds pidAlive pidCmdlineContains
      { pid := .pint pid, startedAt := startedAt,
        pidRequiredSubstrings := some (requiredSubstrings.map .pstr) } now

/-! ## Endpointed capture loop (`voice_hotkey/orchestrator.py`)

`_capture_endpointed_audio` is a while-loop over wall-clock reads and frame
reads.  Each iteration is driven by one `CaptureIterInput`: the `time.time()`
value observed at the top of the loop, the outcome of
`stream.read_frame_with_timeout` (`none` = empty read, `some rms` = a
non-empty frame abstracted to its `_rms_pcm16_le` value), and
`stream.is_running()` for the empty-read case.  Wall-clock instants are
modelled in integer milliseconds, so the loop's
`int((now - started_at) * 1000)` becomes the difference of the two
instants. -/

/-- The resolved `_EndpointSessionConfig`. -/
structure EndpointSessionConfig where
  sessionMaxSeconds : Nat
  startTimeoutMs : Nat
  vadRmsThreshold : Nat
  vadMinSpeechMs : Nat
  vadEndSilenceMs : Nat
deriving DecidableEq, Repr

/-- Mirrors `_resolve_endpoint_session_config`: each override is used iff it
is an `int` and positive, else the configured default applies
(`start_speech_timeout_ms` falls back to 0, disabling the no-speech
timeout). The config-module defaults are environment-derived and passed in
as `defaults`. -/
def resolveEndpointSessionConfig
    (defaults : EndpointSessionConfig)
    (maxSeconds startSpeechTimeoutMs vadRmsThreshold vadMinSpeechMs vadEndSilenceMs :
      Option Int) : EndpointSessionConfig :=
  let pick (o : Option Int) (d : Nat) : Nat :=
    match o with
    | some v => if v > 0 then v.toNat else d
    | none => d
  { sessionMaxSeconds := pick maxSeconds defaults.sessionMaxSeconds,
    startTimeoutMs := pick startSpeechTimeoutMs 0,
    vadRmsThreshold := pick vadRmsThreshold defaults.vadRmsThreshold,
    vadMinSpeechMs := pick vadMinSpeechMs defaults.vadMinSpeechMs,
    vadEndSilenceMs := pick vadEndSilenceMs defaults.vadEndSilenceMs }

/-- The loop-local variables of `_capture_endpointed_audio`. The audio
buffer is kept as the list of appended frame RMS values (its byte content is
irrelevant to the control flow). -/
structure CaptureLoopState where
  startedAt : Int
  speechStartedAt : Option Int
  lastSpeechAt : Option Int
  vad : VadState
  audioFrames : List Nat
  peakRms : Nat
deriving DecidableEq, Repr

/-- One iteration's observations: the wall clock at the loop top, the frame
read (or `none` for an empty read), and stream liveness. -/
structure CaptureIterInput where
  now : Int
  frame : Option Nat
  streamRunning : Bool
deriving DecidableEq, Repr

/-- Why the capture loop broke. -/
inductive CaptureStop where
  | sessionTimeout
  | startTimeout
  | streamEnded
  | inactivityTimeout
  | endpoint
deriving DecidableEq, Repr

/-- Mirrors `int((now - started_at) * 1000)` of the loop, with instants in integer
milliseconds: the elapsed milliseconds since the loop started. -/
def capElapsedMs (startedAt now : Int) : Int :=
  now - startedAt

/-- Fresh loop state as set up by `_capture_endpointed_audio` before the
`while`: `started_at = time.time()`, no speech seen, buffer primed with the
pre-roll bytes (tracked separately by the session wrapper). -/
def captureInit (startedAt : Int) (vad : VadState) : CaptureLoopState :=
  { startedAt := startedAt, speechStartedAt := none, lastSpeechAt := none,
    vad := vad, audioFrames := [], peakRms := 0 }

/-- One iteration of the `while True` body of `_capture_endpointed_audio`:
`Sum.inr` is `break` with the final state and reason, `Sum.inl` is
`continue`. -/
def captureStep (cfg : EndpointSessionConfig) (st : CaptureLoopState)
    (inp : CaptureIterInput) : CaptureLoopState ⊕ (CaptureLoopState × CaptureStop) :=
  let elapsedMs := capElapsedMs st.startedAt inp.now
  if st.speechStartedAt = none ∧ elapsedMs ≥ (cfg.sessionMaxSeconds * 1000 : Nat) then
    .inr (st, .sessionTimeout)
  else if cfg.startTimeoutMs > 0 ∧ st.vad.hasStarted = false ∧
      elapsedMs ≥ (cfg.startTimeoutMs : Nat) then
    .inr (st, .startTimeout)
  else
    match inp.frame with
    | none =>
        if inp.streamRunning then .inl st else .inr (st, .streamEnded)
    | some rms =>
        let u := vadUpdate st.vad (some rms)
        let vad' := u.1
        let hasStarted := u.2.1
        let endpoint := u.2.2.1
        let st' : CaptureLoopState :=
          { st with
              vad := vad',
              audioFrames := st.audioFrames ++ [rms],
              peakRms := max st.peakRms rms,
              speechStartedAt :=
                if hasStarted ∧ st.speechStartedAt = none then some inp.now
                else st.speechStartedAt,
              lastSpeechAt :=
                if rms ≥ cfg.vadRmsThreshold then some inp.now else st.lastSpeechAt }
        let inactivityHit : Bool :=
          hasStarted &&
            (match st'.lastSpeechAt with
             | some t => decide (capElapsedMs t inp.now ≥ (cfg.sessionMaxSeconds * 1000 : Nat))
             | none => false)
        if inactivityHit then .inr (st', .inactivityTimeout)
        else if hasStarted ∧ endpoint then .inr (st', .endpoint)
        else .inl st'

/-- Runs the capture loop over a finite observation trace; `none` means the
trace was exhausted without the loop breaking. -/
def captureRun (cfg : EndpointSessionConfig) (st : CaptureLoopState) :
    List CaptureIterInput → CaptureLoopState × Option CaptureStop
  | [] => (st, none)
  | inp :: rest =>
      match captureStep cfg st inp with
      | .inl st' => captureRun cfg st' rest
      | .inr (st', r) => (st', some r)

/-! ## Endpointed session wrapper (`run_endpointed_command_session`) -/

/-- Constant `NO_SPEECH_EXIT_CODE` as returned by `_handle_no_speech_result`
(the literal `3`). -/
def noSpeechExitCode : Int := 3

/-- Modelled from the spec: `CANCELLED_EXIT_CODE = 4` is imported from
`voice_hotkey.orchestrator` by `app.py`, `wakeword.py` and
`tests/test_phase2_orchestrator_cancel.py`, but the in-tree
`orchestrator.py` defines neither the constant nor the `cancel_event`
parameter those callers pass; §4.2/§6 of the spec fix the value 4. -/
def cancelledExitCode : Int := 4

/-- Mirrors `_preroll_has_speech(pcm_data, rms_threshold)`: peak absolute
sample at or above the threshold. The byte buffer is modelled at sample
granularity (`len(pcm_data) < 2` and the empty cast both yield `False`,
i.e. the empty sample list). -/
def prerollHasSpeech (samples : List Int) (rmsThreshold : Nat) : Bool :=
  match samples with
  | [] => false
  | s :: rest => decide ((rest.foldl (fun acc x => max acc x.natAbs) s.natAbs) ≥ rmsThreshold)

/-- Observable effects of one endpointed session, in program order. -/
inductive SessionEffect where
  | sayGreeting
  | notifyPrompt
  | writeWakeSessionState
  | openCaptureStream
  | notifyNoSpeech
  | transcribeAudio
  | dispatchToHandler
  | unlinkWakeSessionState
deriving DecidableEq, Repr

/-- Session source strings that matter to the control flow. -/
inductive SessionSource where
  | wakeStart
  | commandAuto
deriving DecidableEq, Repr

/-- Oracle bundle for one `run_endpointed_command_session` call: everything
the session observes from the OS and its collaborators. -/
structure SessionEnv where
  /-- Whether `write_private_text(WAKE_SESSION_STATE_PATH, ...)` succeeded (the
  exception branch only logs). -/
  writeWakeStateOk : Bool
  /-- Fresh pre-roll PCM samples loaded by `_load_wake_preroll` (empty when
  the file is missing, stale, or unreadable). -/
  prerollSamples : List Int
  /-- Wall clock at capture start (integer milliseconds). -/
  captureStartedAt : Int
  /-- Observation trace driving `_capture_endpointed_audio`. -/
  captureTrace : List CaptureIterInput
  /-- Modelled from the spec: the externally supplied cancel flag observed
  by the session (absent from the in-tree `orchestrator.py`; required by its
  callers and `tests/test_phase2_orchestrator_cancel.py`). -/
  cancelSet : Bool
  /-- Whether `transcribe(...)` succeeded (vs. raising). -/
  transcribeOk : Bool
  /-- rc returned by the caller-supplied `command_handler`. -/
  handlerRc : Int

/-- Mirrors `run_endpointed_command_session` for a resolved config `cfg`:
notify the prompt, persist the wake-session descriptor for wake sources,
run `_capture_endpointed_audio` (pre-roll prepended for wake sources),
dispatch on no-speech vs. transcription, and always clear the wake-session
descriptor on the way out (`finally`). The cancel gate between capture and
dispatch is the spec-modelled part (see `cancelledExitCode`): a set cancel
flag makes the session return `CANCELLED_EXIT_CODE` instead of dispatching.
Returns the rc and the effect trace. -/
def runEndpointedCommandSession (sessionFrameMs : Nat) (cfg : EndpointSessionConfig)
    (source : SessionSource) (env : SessionEnv) : Int × List SessionEffect :=
  let vad := vadInit sessionFrameMs cfg.vadRmsThreshold cfg.vadMinSpeechMs cfg.vadEndSilenceMs
  let wroteWakeState := source = .wakeStart ∧ env.writeWakeStateOk
  let preEffects :=
    [SessionEffect.notifyPrompt] ++
      (if wroteWakeState then [SessionEffect.writeWakeSessionState] else [])
  let preroll := if source = .wakeStart then env.prerollSamples else []
  let hadPrerollSpeech := prerollHasSpeech preroll cfg.vadRmsThreshold
  let captured := captureRun cfg (captureInit env.captureStartedAt vad) env.captureTrace
  let finalState := captured.1
  let capEffects := [SessionEffect.openCaptureStream]
  let closeEffects :=
    if wroteWakeState then [SessionEffect.unlinkWakeSessionState] else []
  if env.cancelSet then
    (cancelledExitCode, preEffects ++ capEffects ++ closeEffects)
  else if finalState.vad.hasStarted = false ∧ hadPrerollSpeech = false then
    (noSpeechExitCode,
     preEffects ++ capEffects ++ [SessionEffect.notifyNoSpeech] ++ closeEffects)
  else if env.transcribeOk = false then
    (1, preEffects ++ capEffects ++ [SessionEffect.transcribeAudio] ++ closeEffects)
  else
    (env.handlerRc,
     preEffects ++ capEffects ++
       [SessionEffect.transcribeAudio, SessionEffect.dispatchToHandler] ++ closeEffects)

/-! ## Wake-start handler (`voice_hotkey/app.py`, `_run_wake_start`) -/

/-- Mirrors `_run_wake_start`: when the persisted wakeword state reads
disabled, return 0 immediately — before the greeting, the session prompt,
the wake-session state write, the capture stream, and the transcriber.
Otherwise say the greeting and run the endpointed wake session with the
wake-tuned parameters. `cfg` is the already-resolved session config (its
components are environment-derived). -/
def runWakeStart (wakewordEnabled : Bool) (sessionFrameMs : Nat)
    (cfg : EndpointSessionConfig) (env : SessionEnv) : Int × List SessionEffect :=
  if wakewordEnabled = false then
    (0, [])
  else
    let session := runEndpointedCommandSession sessionFrameMs cfg .wakeStart env
    (session.1, SessionEffect.sayGreeting :: session.2)

/-! ## v2 handler wrappers (`voice_hotkey/app.py`)

`_run_wake_start_v2`, `_run_command_start_v2` and `_run_dictate_start_v2`
gate their body on a state-machine transition.  The body (queued call or
press-hold start) is abstracted to its outcome: the `Int` it returned, or
the fact that it raised. -/

/-- Outcome of a handler body. -/
inductive BodyOutcome where
  | ret (rc : Int)
  | thrown
deriving DecidableEq, Repr

/-- How the wrapper itself finishes: returning an rc, or propagating the
body's exception. -/
inductive HandlerExit where
  | returned (rc : Int)
  | raised
deriving DecidableEq, Repr

/-- Result of running a v2 wrapper: final machine state, the completion
actions fed to `RUNTIME_STATE_MACHINE.transition` after admission, and how
the wrapper finished. -/
structure HandlerRun where
  finalState : RuntimeState
  emitted : List String
  exit : HandlerExit
deriving DecidableEq, Repr

/-- Mirrors `_run_wake_start_v2`: admission via `transition("wake-start")`
(rejected ⇒ rc 1, nothing emitted); then `rc = 1` before a `try` whose
`finally` always emits `wake-complete` (rc 0) or `wake-failed`, also when
the queued call raised. -/
def runWakeStartV2 (s : RuntimeState) (body : BodyOutcome) : HandlerRun :=
  let t := smTransition s "wake-start"
  if t.allowed = false then
    { finalState := s, emitted := [], exit := .returned 1 }
  else
    let rc : Int := match body with
      | .ret v => v
      | .thrown => 1
    let action := if rc = 0 then "wake-complete" else "wake-failed"
    let c := smTransition t.nextState action
    { finalState := c.nextState,
      emitted := [action],
      exit := match body with
        | .ret v => .returned v
        | .thrown => .raised }

/-- Mirrors `_run_command_start_v2`: admission via
`transition("command-start")`; then `rc = start_press_hold_command()`, and
only a nonzero *returned* rc triggers `transition("command-start-failed")`
— there is no `try`/`finally`, so a raising body emits nothing. -/
def runCommandStartV2 (s : RuntimeState) (body : BodyOutcome) : HandlerRun :=
  let t := smTransition s "command-start"
  if t.allowed = false then
    { finalState := s, emitted := [], exit := .returned 1 }
  else
    match body with
    | .thrown => { finalState := t.nextState, emitted := [], exit := .raised }
    | .ret v =>
        if v ≠ 0 then
          let c := smTransition t.nextState "command-start-failed"
          { finalState := c.nextState, emitted := ["command-start-failed"],
            exit := .returned v }
        else
          { finalState := t.nextState, emitted := [], exit := .returned v }

/-- Mirrors `_run_dictate_start_v2` (same shape as the command variant). -/
def runDictateStartV2 (s : RuntimeState) (body : BodyOutcome) : HandlerRun :=
  let t := smTransition s "dictate-start"
  if t.allowed = false then
    { finalState := s, emitted := [], exit := .returned 1 }
  else
    match body with
    | .thrown => { finalState := t.nextState, emitted := [], exit := .raised }
    | .ret v =>
        if v ≠ 0 then
          let c := smTransition t.nextState "dictate-start-failed"
          { finalState := c.nextState, emitted := ["dictate-start-failed"],
            exit := .returned v }
        else
          { finalState := t.nextState, emitted := [], exit := .returned v }

/-! ## Press-hold stop path (`voice_hotkey/app.py`, `_stop_press_hold_session`)

The stop handler reads the persisted descriptor and proceeds directly to
signalling, audio polling, transcription and cleanup; it contains no path
validation of `tmpdir` or `audio_path`.  Effects on the recorded paths are
traced. -/

/-- A parsed hold-session descriptor as `_stop_press_hold_session` reads it
(`pid`, `audio_path`, `tmpdir`, `started_at`, `pid_required_substrings`). -/
structure HoldStateFile where
  pid : Int
  audioPath : String
  tmpdir : String
  startedAt : PyVal
  pidRequiredSubstrings : Option (List PyVal)
deriving DecidableEq, Repr

/-- Observable effects of the stop path, in program order. -/
inductive StopEffect where
  | notifyNoActive
  | notifyProcessing
  | signalPid (pid : Int)
  | pollAudio (path : String)
  | notifyNoSpeech
  | transcribeAudio (path : String)
  | runOnTranscription
  | deleteStateFile
  | deleteTmpdir (path : String)
deriving DecidableEq, Repr

/-- Oracle bundle for one `_stop_press_hold_session` call. -/
structure StopEnv where
  /-- Value of `profile.state_path.exists()`. -/
  stateFileExists : Bool
  /-- Result of `_load_press_hold_state`: the parsed descriptor, or `none` when the
  JSON parse failed (the state file is then unlinked and rc is 1). -/
  parsedState : Option HoldStateFile
  /-- Wall clock (`time.time()`) during the staleness check. -/
  now : Rat
  /-- Configured `STATE_MAX_AGE_SECONDS`. -/
  stateMaxAgeSeconds : Rat
  /-- Oracle for `/proc` liveness. -/
  pidAlive : Int → Bool
  /-- Oracle for `/proc` cmdline identity. -/
  pidCmdlineContains : Int → List String → Bool
  /-- Value of `audio_path.exists() and audio_path.stat().st_size > 0` at
  transcription time. -/
  audioNonEmpty : Bool
  /-- Whether `transcribe(...)` succeeded (vs. raising). -/
  transcribeOk : Bool
  /-- rc of the `on_transcription` continuation. -/
  onTranscriptionRc : Int
  /-- Value of `tmpdir.exists()` in the `finally` block. -/
  tmpdirExists : Bool

/-- Mirrors `state_required_substrings` over the descriptor's raw field. -/
def holdStateRequiredSubstrings (st : HoldStateFile) : List String :=
  stateRequiredSubstrings
    { pid := .pint st.pid, startedAt := st.startedAt,
      pidRequiredSubstrings := st.pidRequiredSubstrings }

/-- Mirrors `_stop_press_hold_session profile on_transcription`: missing
state file ⇒ notify, rc 0; unparsable state ⇒ unlink, rc 1; otherwise
notify, conditionally signal the recorded pid
(`_stop_press_hold_recorder`), poll the recorded `audio_path`
(`_wait_for_captured_audio`), transcribe or report no-speech
(`_process_press_hold_transcription`), and in the `finally` unlink the
state file and `shutil.rmtree` the recorded `tmpdir` when it exists.
No step validates `tmpdir` or `audio_path` against the system temp root. -/
def stopPressHoldSession (env : StopEnv) : Int × List StopEffect :=
  if env.stateFileExists = false then
    (0, [.notifyNoActive])
  else
    match env.parsedState with
    | none => (1, [.deleteStateFile])
    | some st =>
        let required := holdStateRequiredSubstrings st
        let signals := stopRecorderSignals env.stateMaxAgeSeconds env.pidAlive
          env.pidCmdlineContains st.pid st.startedAt required env.now
        let signalEffects := if signals then [StopEffect.signalPid st.pid] else []
        let processEffects :=
          if env.audioNonEmpty = false then
            ([StopEffect.notifyNoSpeech], (0 : Int))
          else if env.transcribeOk = false then
            ([StopEffect.transcribeAudio st.audioPath], (1 : Int))
          else
            ([StopEffect.transcribeAudio st.audioPath, StopEffect.runOnTranscription],
             env.onTranscriptionRc)
        let cleanupEffects :=
          [StopEffect.deleteStateFile] ++
            (if env.tmpdirExists then [StopEffect.deleteTmpdir st.tmpdir] else [])
        (processEffects.2,
         [StopEffect.notifyProcessing] ++ signalEffects ++
           [StopEffect.pollAudio st.audioPath] ++ processEffects.1 ++ cleanupEffects)

/-! ## Socket request decoding (`voice_hotkey/app.py`, `voice_controls/app.py`)

The protocol sends one newline-terminated line per connection.
`json.loads` is modelled by `jsonParseObject`, a parser for the flat
string-valued JSON objects the protocol uses (`{"input": "<action>"}`,
without escape sequences); every other line — in particular each bare
action token, none of which is valid JSON — fails, mirroring the raised
`JSONDecodeError`. -/

/-- The `{` character. -/
def chLBrace : Char := Char.ofNat 123

/-- The `}` character. -/
def chRBrace : Char := Char.ofNat 125

/-- The `"` character. -/
def chQuote : Char := Char.ofNat 34

/-- The whitespace characters both `str.strip()` and `json.loads` treat as
blank in this protocol (space, tab, carriage return, newline). -/
def isBlankChar (c : Char) : Bool :=
  c = ' ' ∨ c = '\t' ∨ c = '\r' ∨ c = '\n'

/-- Drops leading JSON whitespace. -/
def skipWs : List Char → List Char
  | c :: rest =>
      if isBlankChar c then skipWs rest else c :: rest
  | [] => []

/-- Mirrors `str.strip()` over the protocol's whitespace set. -/
def pyStrip (s : String) : String :=
  String.mk (((s.toList.dropWhile isBlankChar).reverse.dropWhile isBlankChar).reverse)

/-- Mirrors `raw.split(b"\n", 1)[0]`: the bytes up to the first newline. -/
def firstLine (s : String) : String :=
  String.mk (s.toList.takeWhile (fun c => ¬ c = '\n'))

/-- Reads characters up to the closing quote of a string literal (no escape
support); returns the content and the remainder after the quote. -/
def takeUntilQuote : List Char → Option (List Char × List Char)
  | [] => none
  | c :: rest =>
      if c = chQuote then some ([], rest)
      else
        match takeUntilQuote rest with
        | some (s, r) => some (c :: s, r)
        | none => none

/-- Parses a comma-separated list of `"key": "value"` pairs followed by the
closing brace; returns the pairs and the remainder after the brace. -/
def parsePairs : Nat → List Char → Option (List (String × String) × List Char)
  | 0, _ => none
  | fuel + 1, cs =>
      match skipWs cs with
      | [] => none
      | c :: rest =>
          if c = chQuote then
            match takeUntilQuote rest with
            | none => none
            | some (key, r1) =>
                match skipWs r1 with
                | ':' :: r2 =>
                    (match skipWs r2 with
                     | c2 :: r3 =>
                         if c2 = chQuote then
                           match takeUntilQuote r3 with
                           | none => none
                           | some (val, r4) =>
                               match skipWs r4 with
                               | ',' :: r5 =>
                                   match parsePairs fuel r5 with
                                   | none => none
                                   | some (ps, r6) =>
                                       some ((String.mk key, String.mk val) :: ps, r6)
                               | c3 :: r5 =>
                                   if c3 = chRBrace then
                                     some ([(String.mk key, String.mk val)], r5)
                                   else none
                               | [] => none
                         else none
                     | [] => none)
                | _ => none
          else none

/-- Mirrors `json.loads` restricted to flat string-valued objects: leading and
trailing whitespace allowed, `\x7b"k": "v", ...\x7d` or `\x7b\x7d`;
everything else — numbers, arrays, escapes, bare tokens — yields `none`
(the raised `JSONDecodeError`). -/
def jsonParseObject (line : String) : Option (List (String × String)) :=
  match skipWs line.toList with
  | c :: rest =>
      if c = chLBrace then
        match skipWs rest with
        | c2 :: r2 =>
            if c2 = chRBrace then
              if skipWs r2 = [] then some [] else none
            else
              match parsePairs (rest.length + 1) rest with
              | some (ps, r3) => if skipWs r3 = [] then some ps else none
              | none => none
        | [] => none
      else none
  | [] => none

/-- Mirrors `dict.get(key, default)` over the parsed object. -/
def objGet (obj : List (String × String)) (key dflt : String) : String :=
  ((obj.find? (fun p => p.1 = key)).map (·.2)).getD dflt

/-- Mirrors `_normalize_input_mode` / `LEGACY_INPUT_ALIASES`
(`text → dictate`). -/
def normalizeInputMode (s : String) : String :=
  if s = "text" then "dictate" else s

/-- The framed response a daemon connection sends: a JSON
`\x7b"rc": n\x7d` line, a JSON line additionally carrying the status
payload, or a bare integer line. -/
inductive ResponseForm where
  | jsonRc (rc : Int)
  | jsonRcWithStatus (rc : Int)
  | intLine (rc : Int)
deriving DecidableEq, Repr

/-- Mirrors the parse step of voice_hotkey's `_recv_json_line` /
`_parse_daemon_request`: take the bytes up to the first newline, strip,
reject the empty line, and `json.loads` the result — there is no bare-token
branch. -/
def vhParseDaemonRequest (raw : String) : Option (List (String × String)) :=
  let line := pyStrip (firstLine raw)
  if line = "" then none else jsonParseObject line

/-- Mirrors voice_hotkey's `_handle_daemon_connection`: a failed parse is
answered with JSON rc 1; otherwise `_execute_daemon_request` (the oracle
`exec`, receiving `request.get("input", "voice")`) produces the rc, and the
response is always a JSON line — with the status payload attached for a
successful `runtime-status-json`. -/
def vhHandleDaemonConnection (raw : String) (exec : String → Int) : ResponseForm :=
  match vhParseDaemonRequest raw with
  | none => .jsonRc 1
  | some obj =>
      let rawMode := objGet obj "input" "voice"
      let rc := exec rawMode
      if normalizeInputMode rawMode = "runtime-status-json" ∧ rc = 0 then
        .jsonRcWithStatus rc
      else .jsonRc rc

/-- Mirrors voice_controls' `_decode_request_line(line)`: a stripped line
starting with `\x7b` is decoded as JSON (`payload.get("input")`, `none` on
parse failure or a missing field) with `wants_json = true`; any other line
is the bare legacy token with `wants_json = false`. -/
def vcDecodeRequestLine (line : String) : Option String × Bool :=
  let stripped := pyStrip line
  let startsWithBrace : Bool :=
    match stripped.toList with
    | c :: _ => c = chLBrace
    | [] => false
  if startsWithBrace then
    match jsonParseObject stripped with
    | some obj => ((obj.find? (fun p => p.1 = "input")).map (·.2), true)
    | none => (none, true)
  else (some stripped, false)

/-- Mirrors voice_controls' `_handle_daemon_connection`: `_recv_line` takes
the first line stripped (an empty line raises, answered by a bare `1`
line); then `_decode_request_line` picks the form, `_execute_daemon_request`
(the oracle `exec`) runs the named handler, and the response is a JSON rc
line for JSON requests and a bare integer line for legacy requests. -/
def vcHandleDaemonConnection (raw : String) (exec : String → Int) : ResponseForm :=
  let line := pyStrip (firstLine raw)
  if line = "" then .intLine 1
  else
    let d := vcDecodeRequestLine line
    match d.1 with
    | none => if d.2 then .jsonRc 1 else .intLine 1
    | some tok =>
        let rc := exec tok
        if d.2 then .jsonRc rc else .intLine rc

/-! # Theorems -/

/-! ## C3 — state machine legal table -/

/-- The ten action strings `_resolve_transition` recognizes. -/
def knownActions : List String :=
  ["command-start", "command-stop", "command-stop-complete", "command-start-failed",
   "dictate-start", "dictate-stop", "dictate-stop-complete", "dictate-start-failed",
   "wake-start", "wake-complete", "wake-failed"]

/-- C3 counterexample: the claim requires `*-start-failed` to be accepted
only from the corresponding hold state and every non-completion action in
`WakeSession` to report `runtime_busy`; but `_resolve_transition` accepts
`command-start-failed` from `WakeSession` (indeed from every state) and
rejects `command-stop` in `WakeSession` with `invalid_transition`. -/
theorem c3_counterexample :
    (smTransition .wakeSession "command-start-failed").allowed = true ∧
    (smTransition .wakeSession "command-start-failed").nextState = .idle ∧
    (smTransition .wakeSession "command-stop").allowed = false ∧
    (smTransition .wakeSession "command-stop").reason = some "invalid_transition" := by
  decide

set_option maxRecDepth 8000 in
set_option synthInstance.maxSize 4000 in
set_option synthInstance.maxHeartbeats 1000000 in
/-- C3 (amended): `transition` implements this table — `command-start` is
allowed from `Idle` and (as a self-loop) from `CommandHold`, `dictate-start`
from `Idle` and from `DictateHold`, `wake-start` only from `Idle`;
`command-stop` is allowed from `CommandHold` (to `Transcribing`) and as an
`Idle` no-op, `dictate-stop` from `DictateHold` (to `Transcribing`) and as
an `Idle` no-op — both stops are rejected in `Transcribing`;
`command-start-failed` and `dictate-start-failed` are accepted from every
state (to `Idle`), `*-stop-complete` only from `Transcribing`, and
`wake-complete`/`wake-failed` only from `WakeSession` (each to `Idle`).  A
disallowed pair is rejected with the state unchanged; the reason is
`runtime_busy` exactly for the three capture-start actions received in a
state where they are disallowed, `invalid_transition` for every other
disallowed known action, and `unknown_action` for unrecognized strings. -/
theorem c3_amended (s : RuntimeState) (a : String) :
    ((smTransition s a).allowed = false → (smTransition s a).nextState = s) ∧
    (smTransition s a).previousState = s ∧
    ((smTransition s a).reason = some "runtime_busy" ↔
      ((smTransition s a).allowed = false ∧ a ∈ startActions)) ∧
    ((smTransition s a).allowed = false → a ∈ knownActions →
      (smTransition s a).reason =
        some (if a ∈ startActions then "runtime_busy" else "invalid_transition")) ∧
    (a = "command-start" →
      ((smTransition s a).allowed = true ↔ (s = .idle ∨ s = .commandHold)) ∧
      ((smTransition s a).allowed = true →
        (smTransition s a).nextState = .commandHold)) ∧
    (a = "dictate-start" →
      ((smTransition s a).allowed = true ↔ (s = .idle ∨ s = .dictateHold)) ∧
      ((smTransition s a).allowed = true →
        (smTransition s a).nextState = .dictateHold)) ∧
    (a = "wake-start" →
      ((smTransition s a).allowed = true ↔ s = .idle) ∧
      (s = .idle → (smTransition s a).nextState = .wakeSession)) ∧
    (a = "command-stop" →
      ((smTransition s a).allowed = true ↔ (s = .commandHold ∨ s = .idle)) ∧
      (s = .commandHold → (smTransition s a).nextState = .transcribing) ∧
      (s = .idle → (smTransition s a).nextState = .idle)) ∧
    (a = "dictate-stop" →
      ((smTransition s a).allowed = true ↔ (s = .dictateHold ∨ s = .idle)) ∧
      (s = .dictateHold → (smTransition s a).nextState = .transcribing) ∧
      (s = .idle → (smTransition s a).nextState = .idle)) ∧
    ((a = "command-start-failed" ∨ a = "dictate-start-failed") →
      (smTransition s a).allowed = true ∧ (smTransition s a).nextState = .idle) ∧
    ((a = "command-stop-complete" ∨ a = "dictate-stop-complete") →
      ((smTransition s a).allowed = true ↔ s = .transcribing) ∧
      (s = .transcribing → (smTransition s a).nextState = .idle)) ∧
    ((a = "wake-complete" ∨ a = "wake-failed") →
      ((smTransition s a).allowed = true ↔ s = .wakeSession) ∧
      (s = .wakeSession → (smTransition s a).nextState = .idle)) ∧
    (a ∉ knownActions →
      (smTransition s a).allowed = false ∧
        (smTransition s a).reason = some "unknown_action") := by
  by_cases h1 : a = "command-start"
  · subst h1; cases s <;> decide
  by_cases h2 : a = "command-stop"
  · subst h2; cases s <;> decide
  by_cases h3 : a = "command-stop-complete"
  · subst h3; cases s <;> decide
  by_cases h4 : a = "command-start-failed"
  · subst h4; cases s <;> decide
  by_cases h5 : a = "dictate-start"
  · subst h5; cases s <;> decide
  by_cases h6 : a = "dictate-stop"
  · subst h6; cases s <;> decide
  by_cases h7 : a = "dictate-stop-complete"
  · subst h7; cases s <;> decide
  by_cases h8 : a = "dictate-start-failed"
  · subst h8; cases s <;> decide
  by_cases h9 : a = "wake-start"
  · subst h9; cases s <;> decide
  by_cases h10 : a = "wake-complete"
  · subst h10; cases s <;> decide
  by_cases h11 : a = "wake-failed"
  · subst h11; cases s <;> decide
  have hres : smTransition s a =
      { allowed := false, action := a, previousState := s, nextState := s,
        reason := some "unknown_action" } := by
    simp [smTransition, resolveTransition, h1, h2, h3, h4, h5, h6, h7, h8, h9, h10, h11]
  simp [hres, startActions, knownActions, h1, h2, h3, h4, h5, h6, h7, h8, h9, h10, h11]

/-- C3 amended witness: concrete instance — `command-start-failed` is
accepted from `WakeSession` and returns the machine to `Idle`. -/
theorem c3_amended_witness :
    (smTransition .wakeSession "command-start-failed").allowed = true ∧
    (smTransition .wakeSession "command-start-failed").nextState = .idle :=
  (c3_amended .wakeSession
      "command-start-failed").2.2.2.2.2.2.2.2.2.1 (Or.inl rfl)

/-! ## C5 / C6 — execution queue -/

/-- The running job as a (zero- or one-element) list. -/
def runningList (s : QueueState) : List QueuedJob :=
  match s.runningJob with
  | some j => [j]
  | none => []

/-- All job records a queue state holds, ghost traces included. -/
def queueJobs (s : QueueState) : List QueuedJob :=
  s.pendingJobs ++ (runningList s ++ (s.ran ++ s.cancelledJobs))

theorem mem_queueJobs_iff {s : QueueState} {j : QueuedJob} :
    j ∈ queueJobs s ↔
      j ∈ s.pendingJobs ∨ s.runningJob = some j ∨ j ∈ s.ran ∨ j ∈ s.cancelledJobs := by
  cases h : s.runningJob <;> simp [queueJobs, runningList, h, eq_comm]

/-- The structural invariant of reachable queue states: job ids stay below
the counter and are distinct across the components, so a job cancelled
while pending can never coincide with a job the worker ran. -/
structure QueueInv (s : QueueState) : Prop where
  bound : ∀ j ∈ queueJobs s, j.jobId < s.nextId
  pendingNodup : (s.pendingJobs.map (·.jobId)).Nodup
  pendingRunning : ∀ j ∈ s.pendingJobs, ∀ k, s.runningJob = some k → j.jobId ≠ k.jobId
  pendingRan : ∀ j ∈ s.pendingJobs, ∀ k ∈ s.ran, j.jobId ≠ k.jobId
  cancelledPending : ∀ j ∈ s.cancelledJobs, ∀ k ∈ s.pendingJobs, j.jobId ≠ k.jobId
  cancelledRunning : ∀ j ∈ s.cancelledJobs, ∀ k, s.runningJob = some k → j.jobId ≠ k.jobId
  cancelledRan : ∀ j ∈ s.cancelledJobs, ∀ k ∈ s.ran, j.jobId ≠ k.jobId

theorem QueueInv.boundPending {s : QueueState} (h : QueueInv s) {j : QueuedJob}
    (hj : j ∈ s.pendingJobs) : j.jobId < s.nextId :=
  h.bound j (mem_queueJobs_iff.mpr (Or.inl hj))

theorem QueueInv.boundRunning {s : QueueState} (h : QueueInv s) {j : QueuedJob}
    (hj : s.runningJob = some j) : j.jobId < s.nextId :=
  h.bound j (mem_queueJobs_iff.mpr (Or.inr (Or.inl hj)))

theorem QueueInv.boundRan {s : QueueState} (h : QueueInv s) {j : QueuedJob}
    (hj : j ∈ s.ran) : j.jobId < s.nextId :=
  h.bound j (mem_queueJobs_iff.mpr (Or.inr (Or.inr (Or.inl hj))))

theorem QueueInv.boundCancelled {s : QueueState} (h : QueueInv s) {j : QueuedJob}
    (hj : j ∈ s.cancelledJobs) : j.jobId < s.nextId :=
  h.bound j (mem_queueJobs_iff.mpr (Or.inr (Or.inr (Or.inr hj))))

theorem queueInv_init (cap : Nat) : QueueInv (initQueue cap) := by
  constructor <;> simp [queueJobs, runningList, initQueue]

theorem queueInv_submit (s : QueueState) (name : String) (h : QueueInv s) :
    QueueInv (qApply s (.submit name)) := by
  by_cases hlen : s.pendingJobs.length ≥ s.maxSize
  · simpa [qApply, qSubmit, hlen] using h
  · have hstate : qApply s (.submit name) =
        { s with pendingJobs := s.pendingJobs ++ [freshJob s name],
                 nextId := s.nextId + 1 } := by
      simp [qApply, qSubmit, hlen]
    rw [hstate]
    constructor
    · intro j hj
      rw [mem_queueJobs_iff] at hj
      dsimp at hj ⊢
      rcases hj with hj | hj | hj | hj
      · rcases List.mem_append.mp hj with hj | hj
        · exact Nat.lt_succ_of_lt (h.boundPending hj)
        · simp only [List.mem_singleton] at hj
          subst hj
          simp [freshJob]
      · exact Nat.lt_succ_of_lt (h.boundRunning hj)
      · exact Nat.lt_succ_of_lt (h.boundRan hj)
      · exact Nat.lt_succ_of_lt (h.boundCancelled hj)
    · dsimp
      rw [List.map_append, List.nodup_append]
      refine ⟨h.pendingNodup, by simp, ?_⟩
      intro x hx
      simp only [List.mem_map] at hx
      obtain ⟨j, hj, rfl⟩ := hx
      have := h.boundPending hj
      simp only [List.map_cons, List.map_nil, List.mem_singleton, freshJob]
      omega
    · intro j hj k hk
      dsimp at hj hk
      rcases List.mem_append.mp hj with hj | hj
      · exact h.pendingRunning j hj k hk
      · simp only [List.mem_singleton] at hj
        subst hj
        have := h.boundRunning hk
        simp [freshJob]
        omega
    · intro j hj k hk
      dsimp at hj hk
      rcases List.mem_append.mp hj with hj | hj
      · exact h.pendingRan j hj k hk
      · simp only [List.mem_singleton] at hj
        subst hj
        have := h.boundRan hk
        simp [freshJob]
        omega
    · intro j hj k hk
      dsimp at hj hk
      rcases List.mem_append.mp hk with hk | hk
      · exact h.cancelledPending j hj k hk
      · simp only [List.mem_singleton] at hk
        subst hk
        have := h.boundCancelled hj
        simp [freshJob]
        omega
    · intro j hj k hk
      dsimp at hj hk
      exact h.cancelledRunning j hj k hk
    · intro j hj k hk
      dsimp at hj hk
      exact h.cancelledRan j hj k hk

theorem queueInv_cancel (s : QueueState) (name : String) (h : QueueInv s) :
    QueueInv (qApply s (.cancel name)) := by
  have hinj := List.inj_on_of_nodup_map h.pendingNodup
  have hrem : ∀ j ∈ s.pendingJobs.filter (fun j => ¬ j.name = name),
      j ∈ s.pendingJobs ∧ j.name ≠ name := by
    intro j hj
    have := List.mem_filter.mp hj
    simpa using this
  have hrmv : ∀ j ∈ s.pendingJobs.filter (fun j => j.name = name),
      j ∈ s.pendingJobs ∧ j.name = name := by
    intro j hj
    have := List.mem_filter.mp hj
    simpa using this
  have hrunning : ∀ k', (qApply s (.cancel name)).runningJob = some k' →
      ∃ k0, s.runningJob = some k0 ∧ k'.jobId = k0.jobId := by
    intro k' hk'
    cases hrun : s.runningJob with
    | none => simp [qApply, qCancelByName, hrun] at hk'
    | some k0 =>
        refine ⟨k0, rfl, ?_⟩
        simp only [qApply, qCancelByName, hrun] at hk'
        split_ifs at hk' <;> simp only [Option.some.injEq] at hk' <;> subst hk' <;> rfl
  have hpend : (qApply s (.cancel name)).pendingJobs =
      s.pendingJobs.filter (fun j => ¬ j.name = name) := by
    simp [qApply, qCancelByName]
  have hcanc : (qApply s (.cancel name)).cancelledJobs =
      s.cancelledJobs ++ (s.pendingJobs.filter (fun j => j.name = name)).map
        (fun j => { j with futureCancelled := true }) := by
    simp [qApply, qCancelByName]
  have hran : (qApply s (.cancel name)).ran = s.ran := by
    simp [qApply, qCancelByName]
  have hnext : (qApply s (.cancel name)).nextId = s.nextId := by
    simp [qApply, qCancelByName]
  have hcancMem : ∀ j ∈ (qApply s (.cancel name)).cancelledJobs,
      j ∈ s.cancelledJobs ∨
        ∃ j0 ∈ s.pendingJobs, j0.name = name ∧ j.jobId = j0.jobId := by
    intro j hj
    rw [hcanc] at hj
    rcases List.mem_append.mp hj with hj | hj
    · exact Or.inl hj
    · right
      simp only [List.mem_map] at hj
      obtain ⟨j0, hj0, rfl⟩ := hj
      exact ⟨j0, (hrmv j0 hj0).1, (hrmv j0 hj0).2, rfl⟩
  constructor
  · intro j hj
    rw [mem_queueJobs_iff] at hj
    rw [hnext]
    rcases hj with hj | hj | hj | hj
    · rw [hpend] at hj
      exact h.boundPending (hrem j hj).1
    · obtain ⟨k0, hk0, hid⟩ := hrunning j hj
      rw [hid]
      exact h.boundRunning hk0
    · rw [hran] at hj
      exact h.boundRan hj
    · rcases hcancMem j hj with hj | ⟨j0, hj0, _, hid⟩
      · exact h.boundCancelled hj
      · rw [hid]
        exact h.boundPending hj0
  · rw [hpend]
    exact h.pendingNodup.sublist
      (List.Sublist.map (fun j : QueuedJob => j.jobId) (List.filter_sublist s.pendingJobs))
  · intro j hj k hk
    rw [hpend] at hj
    obtain ⟨k0, hk0, hid⟩ := hrunning k hk
    rw [hid]
    exact h.pendingRunning j (hrem j hj).1 k0 hk0
  · intro j hj k hk
    rw [hpend] at hj
    rw [hran] at hk
    exact h.pendingRan j (hrem j hj).1 k hk
  · intro j hj k hk
    rw [hpend] at hk
    rcases hcancMem j hj with hj' | ⟨j0, hj0, hname0, hid⟩
    · exact h.cancelledPending j hj' k (hrem k hk).1
    · rw [hid]
      intro hEq
      have hjk : j0 = k := hinj hj0 (hrem k hk).1 hEq
      exact (hrem k hk).2 (hjk ▸ hname0)
  · intro j hj k hk
    obtain ⟨k0, hk0, hid⟩ := hrunning k hk
    rw [hid]
    rcases hcancMem j hj with hj' | ⟨j0, hj0, _, hidj⟩
    · exact h.cancelledRunning j hj' k0 hk0
    · rw [hidj]
      exact h.pendingRunning j0 hj0 k0 hk0
  · intro j hj k hk
    rw [hran] at hk
    rcases hcancMem j hj with hj' | ⟨j0, hj0, _, hidj⟩
    · exact h.cancelledRan j hj' k hk
    · rw [hidj]
      exact h.pendingRan j0 hj0 k hk

theorem queueInv_take (s : QueueState) (h : QueueInv s) :
    QueueInv (qApply s .take) := by
  rcases hrun : s.runningJob with _ | k0
  · rcases hpend : s.pendingJobs with _ | ⟨j0, rest⟩
    · have hstate : qApply s .take = s := by
        simp [qApply, qWorkerTake, hrun, hpend]
      rw [hstate]; exact h
    · have hstate : qApply s .take =
          { s with runningJob := some j0, pendingJobs := rest } := by
        simp [qApply, qWorkerTake, hrun, hpend]
      rw [hstate]
      have hnodup := h.pendingNodup
      rw [hpend, List.map_cons, List.nodup_cons] at hnodup
      constructor
      · intro j hj
        rw [mem_queueJobs_iff] at hj
        dsimp at hj ⊢
        rcases hj with hj | hj | hj | hj
        · exact h.boundPending (by rw [hpend]; exact List.mem_cons_of_mem _ hj)
        · simp only [Option.some.injEq] at hj
          subst hj
          exact h.boundPending (by rw [hpend]; exact List.mem_cons_self _ _)
        · exact h.boundRan hj
        · exact h.boundCancelled hj
      · exact hnodup.2
      · intro j hj k hk
        dsimp at hj hk
        simp only [Option.some.injEq] at hk
        subst hk
        intro hEq
        exact hnodup.1 (by rw [← hEq]; exact List.mem_map.mpr ⟨j, hj, rfl⟩)
      · intro j hj k hk
        dsimp at hj hk
        exact h.pendingRan j (by rw [hpend]; exact List.mem_cons_of_mem _ hj) k hk
      · intro j hj k hk
        dsimp at hj hk
        exact h.cancelledPending j hj k (by rw [hpend]; exact List.mem_cons_of_mem _ hk)
      · intro j hj k hk
        dsimp at hj hk
        simp only [Option.some.injEq] at hk
        rw [← hk]
        exact h.cancelledPending j hj j0 (by rw [hpend]; exact List.mem_cons_self _ _)
      · intro j hj k hk
        dsimp at hj hk
        exact h.cancelledRan j hj k hk
  · have hstate : qApply s .take = s := by
      simp [qApply, qWorkerTake, hrun]
    rw [hstate]; exact h

theorem queueInv_run (s : QueueState) (res : Int) (h : QueueInv s) :
    QueueInv (qApply s (.run res)) := by
  rcases hrun : s.runningJob with _ | j0
  · have hstate : qApply s (.run res) = s := by
      simp [qApply, qWorkerRun, hrun]
    rw [hstate]; exact h
  · by_cases hcanc : j0.futureCancelled
    · have hstate : qApply s (.run res) = { s with runningJob := none } := by
        simp [qApply, qWorkerRun, hrun, hcanc]
      rw [hstate]
      constructor
      · intro j hj
        rw [mem_queueJobs_iff] at hj
        dsimp at hj ⊢
        rcases hj with hj | hj | hj | hj
        · exact h.boundPending hj
        · simp at hj
        · exact h.boundRan hj
        · exact h.boundCancelled hj
      · exact h.pendingNodup
      · intro j hj k hk
        dsimp at hk
        simp at hk
      · intro j hj k hk
        dsimp at hj hk
        exact h.pendingRan j hj k hk
      · intro j hj k hk
        dsimp at hj hk
        exact h.cancelledPending j hj k hk
      · intro j hj k hk
        dsimp at hk
        simp at hk
      · intro j hj k hk
        dsimp at hj hk
        exact h.cancelledRan j hj k hk
    · have hstate : qApply s (.run res) =
          { s with runningJob := none,
                   ran := s.ran ++ [{ j0 with futureResult := some res }] } := by
        simp [qApply, qWorkerRun, hrun, hcanc]
      rw [hstate]
      constructor
      · intro j hj
        rw [mem_queueJobs_iff] at hj
        dsimp at hj ⊢
        rcases hj with hj | hj | hj | hj
        · exact h.boundPending hj
        · simp at hj
        · rcases List.mem_append.mp hj with hj | hj
          · exact h.boundRan hj
          · simp only [List.mem_singleton] at hj
            subst hj
            simpa using h.boundRunning hrun
        · exact h.boundCancelled hj
      · exact h.pendingNodup
      · intro j hj k hk
        dsimp at hk
        simp at hk
      · intro j hj k hk
        dsimp at hj hk
        rcases List.mem_append.mp hk with hk | hk
        · exact h.pendingRan j hj k hk
        · simp only [List.mem_singleton] at hk
          subst hk
          exact h.pendingRunning j hj j0 hrun
      · intro j hj k hk
        dsimp at hj hk
        exact h.cancelledPending j hj k hk
      · intro j hj k hk
        dsimp at hk
        simp at hk
      · intro j hj k hk
        dsimp at hj hk
        rcases List.mem_append.mp hk with hk | hk
        · exact h.cancelledRan j hj k hk
        · simp only [List.mem_singleton] at hk
          subst hk
          exact h.cancelledRunning j hj j0 hrun

theorem queueInv_step (s : QueueState) (st : QStep) (h : QueueInv s) :
    QueueInv (qApply s st) := by
  cases st with
  | submit name => exact queueInv_submit s name h
  | cancel name => exact queueInv_cancel s name h
  | take => exact queueInv_take s h
  | run res => exact queueInv_run s res h

theorem queueInv_reach (cap : Nat) (steps : List QStep) :
    QueueInv (qApplyAll (initQueue cap) steps) := by
  suffices h : ∀ (steps : List QStep) (s : QueueState), QueueInv s →
      QueueInv (qApplyAll s steps) from h steps _ (queueInv_init cap)
  intro steps
  induction steps with
  | nil => intro s hs; exact hs
  | cons st rest ih =>
      intro s hs
      exact ih _ (queueInv_step s st hs)

theorem qApply_maxSize (s : QueueState) (st : QStep) :
    (qApply s st).maxSize = s.maxSize := by
  cases st with
  | submit name =>
      by_cases hlen : s.pendingJobs.length ≥ s.maxSize <;> simp [qApply, qSubmit, hlen]
  | cancel name => simp [qApply, qCancelByName]
  | take =>
      cases hrun : s.runningJob <;> cases hpend : s.pendingJobs <;>
        simp [qApply, qWorkerTake, hrun, hpend]
  | run res =>
      cases hrun : s.runningJob with
      | none => simp [qApply, qWorkerRun, hrun]
      | some j =>
          by_cases hc : j.futureCancelled <;> simp [qApply, qWorkerRun, hrun, hc]

theorem qApply_pending_le (s : QueueState) (st : QStep)
    (h : s.pendingJobs.length ≤ s.maxSize) :
    (qApply s st).pendingJobs.length ≤ (qApply s st).maxSize := by
  rw [qApply_maxSize]
  cases st with
  | submit name =>
      by_cases hlen : s.pendingJobs.length ≥ s.maxSize
      · simpa [qApply, qSubmit, hlen] using h
      · simp only [qApply, qSubmit, hlen, if_false]
        rw [List.length_append]
        simp only [List.length_singleton]
        omega
  | cancel name =>
      simp only [qApply, qCancelByName]
      exact le_trans (List.length_filter_le _ _) h
  | take =>
      cases hrun : s.runningJob with
      | none =>
          cases hpend : s.pendingJobs with
          | nil =>
              simp only [qApply, qWorkerTake, hrun, hpend]
              simp
          | cons j0 rest =>
              simp only [qApply, qWorkerTake, hrun, hpend]
              rw [hpend] at h
              simp only [List.length_cons] at h
              omega
      | some k => simpa [qApply, qWorkerTake, hrun] using h
  | run res =>
      cases hrun : s.runningJob with
      | none => simpa [qApply, qWorkerRun, hrun] using h
      | some j =>
          by_cases hc : j.futureCancelled <;>
            simpa [qApply, qWorkerRun, hrun, hc] using h

theorem qApplyAll_maxSize (cap : Nat) (steps : List QStep) :
    (qApplyAll (initQueue cap) steps).maxSize = cap := by
  suffices h : ∀ (steps : List QStep) (s : QueueState),
      (qApplyAll s steps).maxSize = s.maxSize by
    rw [h steps (initQueue cap)]; rfl
  intro steps
  induction steps with
  | nil => intro s; rfl
  | cons st rest ih =>
      intro s
      show (qApplyAll (qApply s st) rest).maxSize = s.maxSize
      rw [ih (qApply s st), qApply_maxSize]

theorem qApplyAll_pending_le (cap : Nat) (steps : List QStep) :
    (qApplyAll (initQueue cap) steps).pendingJobs.length ≤
      (qApplyAll (initQueue cap) steps).maxSize := by
  suffices h : ∀ (steps : List QStep) (s : QueueState),
      s.pendingJobs.length ≤ s.maxSize →
      (qApplyAll s steps).pendingJobs.length ≤ (qApplyAll s steps).maxSize from
    h steps (initQueue cap) (by simp [initQueue])
  intro steps
  induction steps with
  | nil => intro s hs; exact hs
  | cons st rest ih =>
      intro s hs
      exact ih _ (qApply_pending_le s st hs)

/-- C5 counterexample: the worker dequeues the `wake-start` job (its `fn`
not yet started); `cancel_by_name` then reports the job as affected, but it
only sets the cancel event — no future is moved to the cancelled state
(`cancelledJobs` stays empty), and the worker still invokes the job's `fn`
(the job lands in the `ran` trace with its future never cancelled). The
claim's parenthetical — pending-style cancellation also applying to a
dequeued-but-not-yet-started job — is therefore false on the code. -/
theorem c5_counterexample :
    ((qCancelByName (qApplyAll (initQueue 8) [.submit "wake-start", .take])
        "wake-start").2 = true) ∧
    (qApplyAll (initQueue 8)
        [.submit "wake-start", .take, .cancel "wake-start", .run 0]).cancelledJobs = [] ∧
    ((qApplyAll (initQueue 8)
        [.submit "wake-start", .take, .cancel "wake-start", .run 0]).ran.map
          (fun j => j.jobId)) = [1] ∧
    (∀ j ∈ (qApplyAll (initQueue 8)
        [.submit "wake-start", .take, .cancel "wake-start", .run 0]).ran,
      j.futureCancelled = false ∧ j.cancelEvent = true) := by
  decide

/-- C5 (amended): `cancel_by_name(name)` removes every pending (not yet
dequeued) job whose name matches and cancels its future, and such a
cancelled job's `fn` is never invoked in any reachable execution; a job the
worker has already dequeued is the running job — a matching name only sets
its shared cancel event, leaving the future uncancelled (cancellation of the
in-flight job is cooperative); the call returns true iff at least one
pending job was removed or the running job's event was set. -/
theorem c5_amended (s : QueueState) (name : String) (cap : Nat) (steps : List QStep) :
    (∀ j ∈ (qCancelByName s name).1.pendingJobs, j.name ≠ name) ∧
    (∀ j ∈ s.pendingJobs, j.name ≠ name → j ∈ (qCancelByName s name).1.pendingJobs) ∧
    (∀ j ∈ s.pendingJobs, j.name = name →
      { j with futureCancelled := true } ∈ (qCancelByName s name).1.cancelledJobs) ∧
    (∀ j, s.runningJob = some j → j.name = name →
      (qCancelByName s name).1.runningJob = some { j with cancelEvent := true }) ∧
    (∀ j, s.runningJob = some j → j.name ≠ name →
      (qCancelByName s name).1.runningJob = some j) ∧
    ((qCancelByName s name).2 = true ↔
      ((∃ j, s.runningJob = some j ∧ j.name = name) ∨ ∃ j ∈ s.pendingJobs, j.name = name)) ∧
    (∀ j ∈ (qApplyAll (initQueue cap) steps).cancelledJobs,
      ∀ k ∈ (qApplyAll (initQueue cap) steps).ran, j.jobId ≠ k.jobId) := by
  refine ⟨?_, ?_, ?_, ?_, ?_, ?_, ?_⟩
  · intro j hj
    simp only [qCancelByName] at hj
    have := (List.mem_filter.mp hj).2
    simpa using this
  · intro j hj hname
    simp only [qCancelByName]
    exact List.mem_filter.mpr ⟨hj, by simpa using hname⟩
  · intro j hj hname
    simp only [qCancelByName]
    refine List.mem_append.mpr (Or.inr ?_)
    exact List.mem_map.mpr ⟨j, List.mem_filter.mpr ⟨hj, by simpa using hname⟩, rfl⟩
  · intro j hj hname
    simp [qCancelByName, hj, hname]
  · intro j hj hname
    simp [qCancelByName, hj, hname]
  · cases hrun : s.runningJob with
    | none =>
        constructor
        · intro hne
          right
          by_contra hno
          push_neg at hno
          have hfil : s.pendingJobs.filter (fun j => j.name = name) = [] :=
            List.filter_eq_nil_iff.mpr (by
              intro a ha
              simpa using hno a ha)
          simp [qCancelByName, hrun, hfil] at hne
        · rintro (⟨j, hj, _⟩ | ⟨j, hj, hname⟩)
          · simp at hj
          · have hmem : j ∈ s.pendingJobs.filter (fun j => j.name = name) :=
              List.mem_filter.mpr ⟨hj, by simpa using hname⟩
            rcases hfil : s.pendingJobs.filter (fun j => j.name = name) with _ | ⟨a, l⟩
            · rw [hfil] at hmem; simp at hmem
            · simp [qCancelByName, hrun, hfil]
    | some k =>
        by_cases hk : k.name = name
        · constructor
          · intro _
            exact Or.inl ⟨k, rfl, hk⟩
          · intro _
            simp [qCancelByName, hrun, hk]
        · constructor
          · intro hne
            right
            by_contra hno
            push_neg at hno
            have hfil : s.pendingJobs.filter (fun j => j.name = name) = [] :=
              List.filter_eq_nil_iff.mpr (by
                intro a ha
                simpa using hno a ha)
            simp [qCancelByName, hrun, hk, hfil] at hne
          · rintro (⟨j, hj, hname⟩ | ⟨j, hj, hname⟩)
            · simp only [Option.some.injEq] at hj
              exact absurd (show k.name = name by rw [hj]; exact hname) hk
            · have hmem : j ∈ s.pendingJobs.filter (fun j => j.name = name) :=
                List.mem_filter.mpr ⟨hj, by simpa using hname⟩
              rcases hfil : s.pendingJobs.filter (fun j => j.name = name) with _ | ⟨a, l⟩
              · rw [hfil] at hmem; simp at hmem
              · simp [qCancelByName, hrun, hfil]
  · intro j hj k hk
    exact (queueInv_reach cap steps).cancelledRan j hj k hk

/-- C5 amended witness: on the concrete queue whose running job is the
dequeued `wake-start` job, `cancel_by_name` sets only the cancel event. -/
theorem c5_amended_witness :
    (qCancelByName (qApplyAll (initQueue 8) [.submit "wake-start", .take])
        "wake-start").1.runningJob =
      some { jobId := 1, name := "wake-start", futureCancelled := false,
             futureResult := none, cancelEvent := true } :=
  (c5_amended (qApplyAll (initQueue 8) [.submit "wake-start", .take])
      "wake-start" 8 []).2.2.2.1
    { jobId := 1, name := "wake-start", futureCancelled := false,
      futureResult := none, cancelEvent := false }
    (by decide) (by decide)

/-- C6: after any interleaving of submit / cancel / worker steps the pending
count never exceeds the configured capacity; `submit` at capacity returns
`None` with the state unchanged (nothing enqueued, no `fn` invoked), and
below capacity it returns a future and appends exactly the fresh job. -/
theorem c6_submit_bounded (cap : Nat) (steps : List QStep) (name : String) :
    (qApplyAll (initQueue cap) steps).pendingJobs.length ≤ cap ∧
    ((qApplyAll (initQueue cap) steps).pendingJobs.length = cap →
      qSubmit (qApplyAll (initQueue cap) steps) name =
        (qApplyAll (initQueue cap) steps, false)) ∧
    ((qApplyAll (initQueue cap) steps).pendingJobs.length < cap →
      (qSubmit (qApplyAll (initQueue cap) steps) name).2 = true ∧
      (qSubmit (qApplyAll (initQueue cap) steps) name).1.pendingJobs =
        (qApplyAll (initQueue cap) steps).pendingJobs ++
          [freshJob (qApplyAll (initQueue cap) steps) name]) := by
  have hmax := qApplyAll_maxSize cap steps
  have hle := qApplyAll_pending_le cap steps
  rw [hmax] at hle
  refine ⟨hle, ?_, ?_⟩
  · intro heq
    have hcond : (qApplyAll (initQueue cap) steps).pendingJobs.length ≥
        (qApplyAll (initQueue cap) steps).maxSize := by
      rw [hmax]; omega
    simp [qSubmit, hcond]
  · intro hlt
    have hcond : ¬ ((qApplyAll (initQueue cap) steps).pendingJobs.length ≥
        (qApplyAll (initQueue cap) steps).maxSize) := by
      rw [hmax]; omega
    simp [qSubmit, hcond]

/-- C6 witness: a queue of capacity 1 holding one pending job rejects the
next submission without mutating the state. -/
theorem c6_submit_bounded_witness :
    qSubmit (qApplyAll (initQueue 1) [.submit "command-auto"]) "wake-start" =
      (qApplyAll (initQueue 1) [.submit "command-auto"], false) :=
  (c6_submit_bounded 1 [.submit "command-auto"] "wake-start").2.1 (by decide)

/-! ## C8 — EndpointVAD accumulation invariant -/

theorem speechCount_append (th : Nat) (frames : List Nat) (f : Nat) :
    speechCount th (frames ++ [f]) =
      speechCount th frames + (if f ≥ th then 1 else 0) := by
  simp [speechCount, List.countP_append, List.countP_cons]

theorem trailingSilence_append (th : Nat) (frames : List Nat) (f : Nat) :
    trailingSilence th (frames ++ [f]) =
      if f ≥ th then 0 else trailingSilence th frames + 1 := by
  simp [trailingSilence, List.foldl_append]

/-- Closed-form characterization of the VAD state after a frame sequence:
the constants are those fixed by `__init__`, `speech_ms_accum` counts all
speech frames, `has_started` holds exactly when the accumulated speech
reached `min_speech_ms`, and `silence_ms_accum` is the trailing silent run
(post-start, per-speech-frame reset). -/
def VadChar (v0 : VadState) (frames : List Nat) (v : VadState) : Prop :=
  v.frameMs = v0.frameMs ∧ v.rmsThreshold = v0.rmsThreshold ∧
  v.minSpeechMs = v0.minSpeechMs ∧ v.endSilenceMs = v0.endSilenceMs ∧
  v.speechMs = v0.frameMs * speechCount v0.rmsThreshold frames ∧
  (v.hasStarted = true ↔ v0.minSpeechMs ≤ v.speechMs) ∧
  v.silenceMs =
    (if v.hasStarted then v0.frameMs * trailingSilence v0.rmsThreshold frames else 0)

theorem vadChar_init (fm th ms es : Nat) :
    VadChar (vadInit fm th ms es) [] (vadInit fm th ms es) := by
  refine ⟨rfl, rfl, rfl, rfl, by simp [vadInit, speechCount], ?_, by simp [vadInit]⟩
  simp only [vadInit]
  simp only [Bool.false_eq_true, false_iff]
  omega

theorem vadChar_step (v0 v : VadState) (frames : List Nat)
    (h : VadChar v0 frames v) (f : Nat) :
    VadChar v0 (frames ++ [f]) (vadUpdate v (some f)).1 := by
  obtain ⟨hfm, hth, hms, hes, hsp, hst, hsil⟩ := h
  by_cases hspeech : f ≥ v.rmsThreshold
  · have hspeech0 : f ≥ v0.rmsThreshold := by rw [← hth]; exact hspeech
    by_cases hflip : (¬ v.hasStarted = true ∧ v.speechMs + v.frameMs ≥ v.minSpeechMs)
    · have hres : (vadUpdate v (some f)).1 =
          { v with speechMs := v.speechMs + v.frameMs, silenceMs := 0,
                   hasStarted := true } := by
        simp only [vadUpdate]
        rw [if_pos hspeech]
        dsimp only
        rw [if_pos]
        exact ⟨hflip.1, hflip.2⟩
      rw [hres]
      refine ⟨hfm, hth, hms, hes, ?_, ?_, ?_⟩
      · dsimp only
        rw [speechCount_append, if_pos hspeech0, Nat.mul_add, Nat.mul_one, hsp, hfm]
      · dsimp only
        simp only [true_iff]
        have := hflip.2
        omega
      · dsimp only
        rw [if_pos rfl, trailingSilence_append, if_pos hspeech0, Nat.mul_zero]
    · have hres : (vadUpdate v (some f)).1 =
          { v with speechMs := v.speechMs + v.frameMs, silenceMs := 0 } := by
        simp only [vadUpdate]
        rw [if_pos hspeech]
        dsimp only
        rw [if_neg]
        exact hflip
      rw [hres]
      refine ⟨hfm, hth, hms, hes, ?_, ?_, ?_⟩
      · dsimp only
        rw [speechCount_append, if_pos hspeech0, Nat.mul_add, Nat.mul_one, hsp, hfm]
      · dsimp only
        rcases hb : v.hasStarted with _ | _
        · simp only [Bool.false_eq_true, false_iff]
          intro hcontra
          rw [hb] at hflip
          simp only [Bool.false_eq_true, not_false_eq_true, true_and, not_le] at hflip
          omega
        · simp only [true_iff]
          have hmin : v0.minSpeechMs ≤ v.speechMs := by
            rw [← hst]; exact hb
          omega
      · dsimp only
        rcases hb : v.hasStarted with _ | _
        · rw [if_neg (by simp)]
        · rw [if_pos rfl, trailingSilence_append, if_pos hspeech0, Nat.mul_zero]
  · have hspeech0 : ¬ f ≥ v0.rmsThreshold := by rw [← hth]; exact hspeech
    rcases hb : v.hasStarted with _ | _
    · have hnostart : ¬ v.speechMs ≥ v.minSpeechMs := by
        intro hmin
        have hstart : v.hasStarted = true := hst.mpr (by rw [← hms]; exact hmin)
        rw [hb] at hstart
        cases hstart
      have hres : (vadUpdate v (some f)).1 = v := by
        simp [vadUpdate, hspeech, hb, hnostart]
      rw [hres]
      refine ⟨hfm, hth, hms, hes, ?_, ?_, ?_⟩
      · rw [speechCount_append, if_neg hspeech0, Nat.add_zero, hsp]
      · exact hst
      · rw [hb] at hsil ⊢
        simpa using hsil
    · have hres : (vadUpdate v (some f)).1 =
          { v with silenceMs := v.silenceMs + v.frameMs } := by
        simp [vadUpdate, hspeech, hb]
      rw [hres]
      refine ⟨hfm, hth, hms, hes, ?_, ?_, ?_⟩
      · dsimp only
        rw [speechCount_append, if_neg hspeech0, Nat.add_zero, hsp]
      · dsimp only
        exact hst
      · dsimp only
        rw [hb, if_pos rfl] at hsil
        rw [if_pos hb, trailingSilence_append, if_neg hspeech0, Nat.mul_add,
          Nat.mul_one, ← hsil, hfm]

theorem vadChar_fold (fm th ms es : Nat) (frames : List Nat) :
    VadChar (vadInit fm th ms es) frames (vadFold (vadInit fm th ms es) frames) := by
  induction frames using List.reverseRecOn with
  | nil => exact vadChar_init fm th ms es
  | append_singleton l a ih =>
      have hfold : vadFold (vadInit fm th ms es) (l ++ [a]) =
          (vadUpdate (vadFold (vadInit fm th ms es) l) (some a)).1 := by
        simp [vadFold, List.foldl_append]
      rw [hfold]
      exact vadChar_step _ _ l ih a

theorem vadUpdate_endpoint_eq (v : VadState) (f : Nat) :
    (vadUpdate v (some f)).2.2.1 =
      decide ((vadUpdate v (some f)).1.hasStarted = true ∧
        (vadUpdate v (some f)).1.silenceMs ≥ (vadUpdate v (some f)).1.endSilenceMs) := rfl

/-- C8: over any sequence of non-empty frames, `has_started` after a prefix
holds exactly when the accumulated speech milliseconds have reached
`min_speech_ms` — hence it becomes true exactly at the first update where
that happens and, the condition being monotone, stays true — and the
endpoint flag returned by an update holds exactly when `has_started` holds
and the consecutive post-speech silence milliseconds have reached
`end_silence_ms`. -/
theorem c8_vad_endpoint (fm th ms es : Nat) (frames more : List Nat) (f : Nat) :
    ((vadFold (vadInit fm th ms es) frames).hasStarted = true ↔
      (vadInit fm th ms es).minSpeechMs ≤
        (vadInit fm th ms es).frameMs *
          speechCount (vadInit fm th ms es).rmsThreshold frames) ∧
    ((vadFold (vadInit fm th ms es) frames).hasStarted = true →
      (vadFold (vadInit fm th ms es) (frames ++ more)).hasStarted = true) ∧
    ((vadUpdate (vadFold (vadInit fm th ms es) frames) (some f)).2.2.1 = true ↔
      ((vadFold (vadInit fm th ms es) (frames ++ [f])).hasStarted = true ∧
        (vadInit fm th ms es).endSilenceMs ≤
          (vadInit fm th ms es).frameMs *
            trailingSilence (vadInit fm th ms es).rmsThreshold (frames ++ [f]))) := by
  obtain ⟨hfm, hth, hms, hes, hsp, hst, hsil⟩ := vadChar_fold fm th ms es frames
  refine ⟨?_, ?_, ?_⟩
  · rw [hst, hsp]
  · intro hstart
    obtain ⟨_, _, _, _, hsp2, hst2, _⟩ := vadChar_fold fm th ms es (frames ++ more)
    rw [hst2, hsp2]
    rw [hst, hsp] at hstart
    have hcnt : speechCount (vadInit fm th ms es).rmsThreshold frames ≤
        speechCount (vadInit fm th ms es).rmsThreshold (frames ++ more) := by
      simp only [speechCount, List.countP_append]
      exact Nat.le_add_right _ _
    exact le_trans hstart (Nat.mul_le_mul_left _ hcnt)
  · have hfold : (vadUpdate (vadFold (vadInit fm th ms es) frames) (some f)).1 =
        vadFold (vadInit fm th ms es) (frames ++ [f]) := by
      simp [vadFold, List.foldl_append]
    obtain ⟨_, _, _, hes2, _, _, hsil2⟩ := vadChar_fold fm th ms es (frames ++ [f])
    rw [vadUpdate_endpoint_eq, hfold, decide_eq_true_eq]
    constructor
    · rintro ⟨h1, h2⟩
      refine ⟨h1, ?_⟩
      rw [hsil2, if_pos h1] at h2
      rw [hes2] at h2
      exact h2
    · rintro ⟨h1, h2⟩
      refine ⟨h1, ?_⟩
      rw [ge_iff_le, hsil2, if_pos h1, hes2]
      exact h2

/-- C8 witness: with a 20 ms frame, threshold 80, `min_speech_ms` 20 and
`end_silence_ms` 100, a loud frame starts the VAD, and it stays started
after a silent frame. -/
theorem c8_vad_endpoint_witness :
    (vadFold (vadInit 20 80 20 100) ([500] ++ [0])).hasStarted = true :=
  (c8_vad_endpoint 20 80 20 100 [500] [0] 0).2.1 (by decide)

/-! ## C10 — non-numeric `started_at` is never stale -/

/-- C10: `is_state_stale` returns false for every missing or non-numeric
`started_at`, regardless of the configured max age and of the clock; hence
the age gate never suppresses signalling for such descriptors — a positive,
alive pid whose cmdline matches the required substrings is signalled by
`_stop_press_hold_recorder` no matter how old the session actually is. -/
theorem c10_non_numeric_never_stale :
    (∀ (maxAge now : Rat) (v : PyVal), v.isNumeric = false →
      isStateStale maxAge v now = false) ∧
    (∀ (maxAge now : Rat) (pidAlive : Int → Bool)
        (cmdContains : Int → List String → Bool)
        (pid : Int) (startedAt : PyVal) (required : List String),
      pid > 0 → startedAt.isNumeric = false →
      pidAlive pid = true →
      cmdContains pid
        (stateRequiredSubstrings
          { pid := .pint pid, startedAt := startedAt,
            pidRequiredSubstrings := some (required.map .pstr) }) = true →
      stopRecorderSignals maxAge pidAlive cmdContains pid startedAt required now
        = true) := by
  constructor
  · intro maxAge now v hv
    simp [isStateStale, hv]
  · intro maxAge now pidAlive cmdContains pid startedAt required hpid hnum halive hcmd
    have h0 : ¬ pid ≤ 0 := by omega
    have hstale : isStateStale maxAge startedAt now = false := by
      simp [isStateStale, hnum]
    simp only [stopRecorderSignals, if_neg h0, isCaptureStateActivePayload]
    rw [if_pos hpid]
    simp [hstale, halive, hcmd]

/-- C10 witness: a descriptor whose `started_at` is the string `"soon"` is
treated as active arbitrarily far in the future. -/
theorem c10_non_numeric_never_stale_witness :
    stopRecorderSignals 900 (fun _ => true) (fun _ _ => true) 1234
      (.pstr "soon") ["ffmpeg"] 1000000000 = true :=
  c10_non_numeric_never_stale.2 900 1000000000 (fun _ => true) (fun _ _ => true)
    1234 (.pstr "soon") ["ffmpeg"] (by decide) (by decide) rfl rfl

/-! ## C4 — completion-guard coverage of the v2 start handlers -/

/-- C4 counterexample: `_run_command_start_v2`, admitted from `Idle` with a
body (`start_press_hold_command`) that raises, emits no completion action
and leaves the machine in `CommandHold` while the exception propagates —
the claim requires a `*-complete`/`*-failed` emission on every exit path,
including throws. -/
theorem c4_counterexample :
    runCommandStartV2 .idle .thrown =
      { finalState := .commandHold, emitted := [], exit := .raised } := by
  decide

/-- C4 (amended): the wake-start handler emits exactly one completion
action on every exit path — `wake-complete` when the queued body returns 0,
`wake-failed` otherwise, also when the body throws — and always returns the
machine to `Idle`; the command-start and dictate-start handlers emit
`*-start-failed` exactly when the body returns a nonzero rc (ending in
`Idle`): a body returning 0 emits nothing and stays in the hold state (by
design, cleared later by the stop half), and a throwing body also emits
nothing, leaving the machine in the hold state with the exception
propagating. -/
theorem c4_amended (s : RuntimeState) (v : Int) :
    ((smTransition s "wake-start").allowed = true →
      (runWakeStartV2 s (.ret v)).emitted =
          [if v = 0 then "wake-complete" else "wake-failed"] ∧
      (runWakeStartV2 s (.ret v)).finalState = .idle ∧
      (runWakeStartV2 s .thrown).emitted = ["wake-failed"] ∧
      (runWakeStartV2 s .thrown).finalState = .idle ∧
      (runWakeStartV2 s .thrown).exit = .raised) ∧
    ((smTransition s "command-start").allowed = true →
      (v ≠ 0 →
        (runCommandStartV2 s (.ret v)).emitted = ["command-start-failed"] ∧
        (runCommandStartV2 s (.ret v)).finalState = .idle) ∧
      (runCommandStartV2 s (.ret 0)).emitted = [] ∧
      (runCommandStartV2 s (.ret 0)).finalState = .commandHold ∧
      (runCommandStartV2 s .thrown).emitted = [] ∧
      (runCommandStartV2 s .thrown).finalState = .commandHold ∧
      (runCommandStartV2 s .thrown).exit = .raised) ∧
    ((smTransition s "dictate-start").allowed = true →
      (v ≠ 0 →
        (runDictateStartV2 s (.ret v)).emitted = ["dictate-start-failed"] ∧
        (runDictateStartV2 s (.ret v)).finalState = .idle) ∧
      (runDictateStartV2 s (.ret 0)).emitted = [] ∧
      (runDictateStartV2 s (.ret 0)).finalState = .dictateHold ∧
      (runDictateStartV2 s .thrown).emitted = [] ∧
      (runDictateStartV2 s .thrown).finalState = .dictateHold ∧
      (runDictateStartV2 s .thrown).exit = .raised) := by
  refine ⟨?_, ?_, ?_⟩
  · intro hallow
    have hs : s = .idle := by
      cases s
      · rfl
      all_goals exact absurd hallow (by decide)
    subst hs
    by_cases hv : v = 0
    · subst hv
      refine ⟨by decide, by decide, by decide, by decide, by decide⟩
    · have ht : smTransition .idle "wake-start" =
          { allowed := true, action := "wake-start", previousState := .idle,
            nextState := .wakeSession, reason := none } := by decide
      have hc : smTransition .wakeSession "wake-failed" =
          { allowed := true, action := "wake-failed",
            previousState := .wakeSession, nextState := .idle, reason := none } := by
        decide
      refine ⟨?_, ?_, by decide, by decide, by decide⟩
      · simp [runWakeStartV2, ht, hc, hv]
      · simp [runWakeStartV2, ht, hc, hv]
  · intro hallow
    have hs : s = .idle ∨ s = .commandHold := by
      cases s
      · exact Or.inl rfl
      · exact Or.inr rfl
      all_goals exact absurd hallow (by decide)
    have hmain : ∀ s0 : RuntimeState,
        smTransition s0 "command-start" =
          { allowed := true, action := "command-start", previousState := s0,
            nextState := .commandHold, reason := none } →
        (v ≠ 0 →
          (runCommandStartV2 s0 (.ret v)).emitted = ["command-start-failed"] ∧
          (runCommandStartV2 s0 (.ret v)).finalState = .idle) ∧
        (runCommandStartV2 s0 (.ret 0)).emitted = [] ∧
        (runCommandStartV2 s0 (.ret 0)).finalState = .commandHold ∧
        (runCommandStartV2 s0 .thrown).emitted = [] ∧
        (runCommandStartV2 s0 .thrown).finalState = .commandHold ∧
        (runCommandStartV2 s0 .thrown).exit = .raised := by
      intro s0 ht
      have hc : smTransition .commandHold "command-start-failed" =
          { allowed := true, action := "command-start-failed",
            previousState := .commandHold, nextState := .idle, reason := none } := by
        decide
      refine ⟨?_, ?_, ?_, ?_, ?_, ?_⟩
      · intro hv
        constructor
        · simp [runCommandStartV2, ht, hc, hv]
        · simp [runCommandStartV2, ht, hc, hv]
      all_goals simp [runCommandStartV2, ht, hc]
    rcases hs with rfl | rfl
    · exact hmain .idle (by decide)
    · exact hmain .commandHold (by decide)
  · intro hallow
    have hs : s = .idle ∨ s = .dictateHold := by
      cases s
      · exact Or.inl rfl
      · exact absurd hallow (by decide)
      · exact Or.inr rfl
      all_goals exact absurd hallow (by decide)
    have hmain : ∀ s0 : RuntimeState,
        smTransition s0 "dictate-start" =
          { allowed := true, action := "dictate-start", previousState := s0,
            nextState := .dictateHold, reason := none } →
        (v ≠ 0 →
          (runDictateStartV2 s0 (.ret v)).emitted = ["dictate-start-failed"] ∧
          (runDictateStartV2 s0 (.ret v)).finalState = .idle) ∧
        (runDictateStartV2 s0 (.ret 0)).emitted = [] ∧
        (runDictateStartV2 s0 (.ret 0)).finalState = .dictateHold ∧
        (runDictateStartV2 s0 .thrown).emitted = [] ∧
        (runDictateStartV2 s0 .thrown).finalState = .dictateHold ∧
        (runDictateStartV2 s0 .thrown).exit = .raised := by
      intro s0 ht
      have hc : smTransition .dictateHold "dictate-start-failed" =
          { allowed := true, action := "dictate-start-failed",
            previousState := .dictateHold, nextState := .idle, reason := none } := by
        decide
      refine ⟨?_, ?_, ?_, ?_, ?_, ?_⟩
      · intro hv
        constructor
        · simp [runDictateStartV2, ht, hc, hv]
        · simp [runDictateStartV2, ht, hc, hv]
      all_goals simp [runDictateStartV2, ht, hc]
    rcases hs with rfl | rfl
    · exact hmain .idle (by decide)
    · exact hmain .dictateHold (by decide)

/-- C4 amended witness: the admitted wake handler whose body throws still
emits `wake-failed` and ends `Idle`. -/
theorem c4_amended_witness :
    (runWakeStartV2 .idle .thrown).emitted = ["wake-failed"] ∧
    (runWakeStartV2 .idle .thrown).finalState = .idle :=
  ⟨((c4_amended .idle 1).1 (by decide)).2.2.1,
   ((c4_amended .idle 1).1 (by decide)).2.2.2.1⟩

/-! ## C9 — wake-start against a disabled wakeword state -/

/-- C9: when the persisted wakeword state reads disabled, `_run_wake_start`
returns rc 0 immediately with no observable effects — no greeting, no
prompt, no wake-session state write, no capture stream, no transcription —
so by rc alone it is indistinguishable from a fully successful wake session
(cancel flag unset, speech captured, transcription ok, intent handler
rc 0), which also returns 0. -/
theorem c9_wake_disabled (fm : Nat) (cfg : EndpointSessionConfig)
    (env env2 : SessionEnv) :
    runWakeStart false fm cfg env = (0, []) ∧
    (env2.cancelSet = false → env2.transcribeOk = true → env2.handlerRc = 0 →
      (captureRun cfg (captureInit env2.captureStartedAt
          (vadInit fm cfg.vadRmsThreshold cfg.vadMinSpeechMs cfg.vadEndSilenceMs))
          env2.captureTrace).1.vad.hasStarted = true →
      (runWakeStart true fm cfg env2).1 = 0) := by
  constructor
  · simp [runWakeStart]
  · intro hcancel htrans hrc hspeech
    simp [runWakeStart, runEndpointedCommandSession, hcancel, htrans, hrc, hspeech]

/-- C9 witness: concrete disabled call (rc 0, no effects) and a concrete
successful enabled session (rc 0). -/
theorem c9_wake_disabled_witness :
    runWakeStart false 20 ⟨8, 7000, 80, 20, 700⟩
        { writeWakeStateOk := true, prerollSamples := [], captureStartedAt := 0,
          captureTrace := [], cancelSet := false, transcribeOk := true,
          handlerRc := 0 } = (0, []) ∧
    (runWakeStart true 20 ⟨8, 7000, 80, 20, 700⟩
        { writeWakeStateOk := true, prerollSamples := [], captureStartedAt := 0,
          captureTrace := [⟨0, some 500, true⟩], cancelSet := false,
          transcribeOk := true, handlerRc := 0 }).1 = 0 :=
  ⟨(c9_wake_disabled 20 ⟨8, 7000, 80, 20, 700⟩
      { writeWakeStateOk := true, prerollSamples := [], captureStartedAt := 0,
        captureTrace := [], cancelSet := false, transcribeOk := true,
        handlerRc := 0 }
      { writeWakeStateOk := true, prerollSamples := [], captureStartedAt := 0,
        captureTrace := [⟨0, some 500, true⟩], cancelSet := false,
        transcribeOk := true, handlerRc := 0 }).1,
   (c9_wake_disabled 20 ⟨8, 7000, 80, 20, 700⟩
      { writeWakeStateOk := true, prerollSamples := [], captureStartedAt := 0,
        captureTrace := [], cancelSet := false, transcribeOk := true,
        handlerRc := 0 }
      { writeWakeStateOk := true, prerollSamples := [], captureStartedAt := 0,
        captureTrace := [⟨0, some 500, true⟩], cancelSet := false,
        transcribeOk := true, handlerRc := 0 }).2 rfl rfl rfl (by decide)⟩

/-! ## C1 — stop-path descriptor path validation is absent -/

/-- The oracle bundle matching the repository's own path-traversal test
input (`tests/test_core_units.py`, `test_rejects_tmp_prefix_bypass`):
a persisted dictate descriptor with pid 0 and the `/tmp-evil` sibling
paths; the audio file does not exist, the tmpdir does. -/
def c1FailingEnv : StopEnv :=
  { stateFileExists := true
    parsedState := some
      { pid := 0
        audioPath := "/tmp-evil/payload/capture.wav"
        tmpdir := "/tmp-evil/payload"
        startedAt := .pfloat 1000
        pidRequiredSubstrings :=
          some [.pstr "ffmpeg", .pstr "/tmp-evil/payload/capture.wav"] }
    now := 1001
    stateMaxAgeSeconds := 900
    pidAlive := fun _ => false
    pidCmdlineContains := fun _ _ => false
    audioNonEmpty := false
    transcribeOk := true
    onTranscriptionRc := 0
    tmpdirExists := true }

/-- C1: `_stop_press_hold_session` evaluated at the sibling-bypass
descriptor — the claim (and the repository's own test) require rc 1 with
the recorded paths neither signalled, read nor deleted; the handler instead
returns rc 0, polls the recorded audio path, and removes the `/tmp-evil`
tmpdir, because no step validates the descriptor's paths. -/
theorem c1_stop_no_validation :
    stopPressHoldSession c1FailingEnv =
      (0, [.notifyProcessing, .pollAudio "/tmp-evil/payload/capture.wav",
           .notifyNoSpeech, .deleteStateFile, .deleteTmpdir "/tmp-evil/payload"]) := by
  decide

/-! ## C2 — capture-loop termination conditions -/

/-- C2 counterexample: a wake-style session (8 s cap, 7 s start-speech
timeout) whose VAD has started keeps capturing at 9 s of wall clock while
speech continues — the loop iteration continues (`Sum.inl`) even though
wall-clock elapsed ≥ `session_max_seconds`, because the code's wall-clock
cap applies only before speech starts. -/
theorem c2_counterexample :
    (capElapsedMs
        ((captureRun ⟨8, 7000, 80, 20, 700⟩
            (captureInit 0 (vadInit 20 80 20 700))
            [⟨0, some 500, true⟩, ⟨100, some 500, true⟩]).1).startedAt 9000 ≥
      ((8 * 1000 : Nat) : Int)) ∧
    ((captureRun ⟨8, 7000, 80, 20, 700⟩
        (captureInit 0 (vadInit 20 80 20 700))
        [⟨0, some 500, true⟩, ⟨100, some 500, true⟩]).1).vad.hasStarted = true ∧
    (captureStep ⟨8, 7000, 80, 20, 700⟩
        ((captureRun ⟨8, 7000, 80, 20, 700⟩
            (captureInit 0 (vadInit 20 80 20 700))
            [⟨0, some 500, true⟩, ⟨100, some 500, true⟩]).1)
        ⟨9000, some 500, true⟩).isLeft = true := by
  decide

/-- C2 (amended): one iteration of `_capture_endpointed_audio` breaks
exactly when one of these holds — (i) speech has not yet started and
elapsed ≥ `session_max_seconds` (the wall-clock cap applies only
pre-speech); (ii) `start_speech_timeout_ms` > 0, the VAD has not started,
and elapsed ≥ that timeout; (iii) the stream yields no frame and has
exited; (iv) the VAD has started (after this frame) and the time since the
last above-threshold frame reaches `session_max_seconds` (inactivity);
(v) the VAD has started and the endpoint fired (post-speech silence ≥
`end_silence_ms`).  The cancel flag is not consulted by the loop; per the
spec (modelled, see `cancelledExitCode`) the session wrapper returns
`CANCELLED_EXIT_CODE` 4 whenever it is set. -/
theorem c2_amended (cfg : EndpointSessionConfig) (st : CaptureLoopState)
    (inp : CaptureIterInput) (fm : Nat) (source : SessionSource) (env : SessionEnv) :
    ((captureStep cfg st inp).isRight = true ↔
      ((st.speechStartedAt = none ∧
          (cfg.sessionMaxSeconds : Int) * 1000 ≤ capElapsedMs st.startedAt inp.now) ∨
       (0 < cfg.startTimeoutMs ∧ st.vad.hasStarted = false ∧
          (cfg.startTimeoutMs : Int) ≤ capElapsedMs st.startedAt inp.now) ∨
       (inp.frame = none ∧ inp.streamRunning = false) ∨
       (∃ rms, inp.frame = some rms ∧
          (vadUpdate st.vad (some rms)).2.1 = true ∧
          ∃ t, (if cfg.vadRmsThreshold ≤ rms then some inp.now else st.lastSpeechAt)
              = some t ∧
            (cfg.sessionMaxSeconds : Int) * 1000 ≤ capElapsedMs t inp.now) ∨
       (∃ rms, inp.frame = some rms ∧
          (vadUpdate st.vad (some rms)).2.1 = true ∧
          (vadUpdate st.vad (some rms)).2.2.1 = true))) ∧
    (env.cancelSet = true →
      (runEndpointedCommandSession fm cfg source env).1 = cancelledExitCode) := by
  constructor
  · by_cases h1 : st.speechStartedAt = none ∧
        (cfg.sessionMaxSeconds : Int) * 1000 ≤ capElapsedMs st.startedAt inp.now
    · simp [captureStep, h1.1, h1.2]
    · by_cases h2 : 0 < cfg.startTimeoutMs ∧ st.vad.hasStarted = false ∧
          (cfg.startTimeoutMs : Int) ≤ capElapsedMs st.startedAt inp.now
      · simp [captureStep, h1, h2, h2.1, h2.2.1, h2.2.2]
      · rcases hf : inp.frame with _ | rms
        · rcases hrun : inp.streamRunning with _ | _ <;>
            simp [captureStep, h1, h2, hf, hrun]
        · by_cases hstart : (vadUpdate st.vad (some rms)).2.1 = true
          · by_cases hr : cfg.vadRmsThreshold ≤ rms
            · by_cases hel : (cfg.sessionMaxSeconds : Int) * 1000 ≤
                  capElapsedMs inp.now inp.now
              · simp [captureStep, h1, h2, hf, hstart, hr, hel]
              · by_cases hend : (vadUpdate st.vad (some rms)).2.2.1 = true <;>
                  simp [captureStep, h1, h2, hf, hstart, hr, hel, hend]
            · rcases hls : st.lastSpeechAt with _ | t0
              · by_cases hend : (vadUpdate st.vad (some rms)).2.2.1 = true <;>
                  simp [captureStep, h1, h2, hf, hstart, hr, hls, hend]
              · by_cases hel : (cfg.sessionMaxSeconds : Int) * 1000 ≤
                    capElapsedMs t0 inp.now
                · simp [captureStep, h1, h2, hf, hstart, hr, hls, hel]
                · by_cases hend : (vadUpdate st.vad (some rms)).2.2.1 = true <;>
                    simp [captureStep, h1, h2, hf, hstart, hr, hls, hel, hend]
          · simp [captureStep, h1, h2, hf, hstart]
  · intro hc
    simp [runEndpointedCommandSession, hc]

/-- C2 amended witness: a concrete command-auto session with the cancel
flag set returns `CANCELLED_EXIT_CODE` 4. -/
theorem c2_amended_witness :
    (runEndpointedCommandSession 20 ⟨8, 7000, 80, 20, 700⟩ .commandAuto
        { writeWakeStateOk := true, prerollSamples := [], captureStartedAt := 0,
          captureTrace := [], cancelSet := true, transcribeOk := true,
          handlerRc := 0 }).1 = cancelledExitCode :=
  (c2_amended ⟨8, 7000, 80, 20, 700⟩ (captureInit 0 (vadInit 20 80 20 700))
      ⟨0, none, true⟩ 20 .commandAuto
      { writeWakeStateOk := true, prerollSamples := [], captureStartedAt := 0,
        captureTrace := [], cancelSet := true, transcribeOk := true,
        handlerRc := 0 }).2 rfl

/-! ## C7 — socket request forms -/

/-- C7 counterexample: the same bare-token request `dictate-stop` is routed
to the handler and answered with a bare integer line by the voice_controls
server, but the voice_hotkey server fails to decode it (`json.loads`
raises), never routes it, and answers with a JSON rc-1 line — so "the
connection server accepts both request forms" is false for the voice_hotkey
daemon. -/
theorem c7_counterexample :
    vcHandleDaemonConnection "dictate-stop\n" (fun _ => 0) = .intLine 0 ∧
    vhHandleDaemonConnection "dictate-stop\n" (fun _ => 0) = .jsonRc 1 := by
  constructor <;> rfl

/-- C7 (amended): the voice_controls connection server accepts both request
forms and routes them to the same `_execute_daemon_request` handler — the
bare token is answered with a bare integer rc line, the JSON form carrying
the same token with a JSON rc line — while the voice_hotkey connection
server decodes only the JSON form: it answers the JSON request with a JSON
rc line and rejects the bare token (which is not valid JSON) with a JSON
rc-1 line, never reaching the handler. -/
theorem c7_amended (exec : String → Int) (raw rawJson tok jline : String)
    (hline : pyStrip (firstLine raw) = tok)
    (htok : tok ≠ "")
    (htrim : pyStrip tok = tok)
    (hbrace : (match tok.toList with | c :: _ => c = chLBrace | [] => false) = false)
    (hnotjson : jsonParseObject tok = none)
    (hjline : pyStrip (firstLine rawJson) = jline)
    (hjne : jline ≠ "")
    (hjtrim : pyStrip jline = jline)
    (hjbrace : (match jline.toList with | c :: _ => c = chLBrace | [] => false) = true)
    (hparse : jsonParseObject jline = some [("input", tok)])
    (hstatus : normalizeInputMode tok ≠ "runtime-status-json" ∨ exec tok ≠ 0) :
    vcHandleDaemonConnection raw exec = .intLine (exec tok) ∧
    vcHandleDaemonConnection rawJson exec = .jsonRc (exec tok) ∧
    vhHandleDaemonConnection rawJson exec = .jsonRc (exec tok) ∧
    vhHandleDaemonConnection raw exec = .jsonRc 1 := by
  have hdecode : vcDecodeRequestLine tok = (some tok, false) := by
    simp only [vcDecodeRequestLine, htrim, hbrace]
    simp
  have hdecodej : vcDecodeRequestLine jline = (some tok, true) := by
    simp only [vcDecodeRequestLine, hjtrim, hjbrace, hparse]
    simp
  refine ⟨?_, ?_, ?_, ?_⟩
  · simp only [vcHandleDaemonConnection, hline]
    rw [if_neg htok]
    simp [hdecode]
  · simp only [vcHandleDaemonConnection, hjline]
    rw [if_neg hjne]
    simp [hdecodej]
  · have hnostatus : ¬ (normalizeInputMode tok = "runtime-status-json" ∧ exec tok = 0) := by
      rcases hstatus with h | h
      · exact fun hc => h hc.1
      · exact fun hc => h hc.2
    have hobj : objGet [("input", tok)] "input" "voice" = tok := by
      simp [objGet]
    simp only [vhHandleDaemonConnection, vhParseDaemonRequest, hjline]
    rw [if_neg hjne]
    simp only [hparse, hobj]
    rw [if_neg hnostatus]
  · simp only [vhHandleDaemonConnection, vhParseDaemonRequest, hline]
    rw [if_neg htok]
    simp [hnotjson]

/-- C7 amended witness: the concrete token `dictate-stop`, as a bare line
and as `\x7b"input": "dictate-stop"\x7d`, on both servers. -/
theorem c7_amended_witness :
    vcHandleDaemonConnection "dictate-stop\n"
        (fun t => if t = "dictate-stop" then 0 else 2) = .intLine 0 ∧
    vcHandleDaemonConnection "\x7b\"input\": \"dictate-stop\"\x7d\n"
        (fun t => if t = "dictate-stop" then 0 else 2) = .jsonRc 0 ∧
    vhHandleDaemonConnection "\x7b\"input\": \"dictate-stop\"\x7d\n"
        (fun t => if t = "dictate-stop" then 0 else 2) = .jsonRc 0 ∧
    vhHandleDaemonConnection "dictate-stop\n"
        (fun t => if t = "dictate-stop" then 0 else 2) = .jsonRc 1 :=
  c7_amended (fun t => if t = "dictate-stop" then 0 else 2)
    "dictate-stop\n" "\x7b\"input\": \"dictate-stop\"\x7d\n"
    "dictate-stop" "\x7b\"input\": \"dictate-stop\"\x7d"
    rfl (by decide) rfl rfl rfl rfl (by decide) rfl rfl rfl
    (Or.inl (by decide))


end VoiceControls
